import Mathlib

/-! BoidsCPP: the agent of `BoidProjectVS/boid.h`

A shallow embedding of the class `Boid` and of its behavioural methods (`Update`,
`ApplySeparation`, `ApplyAlignment`, `ApplyCohesion`, the constructor and the accessors).

The class is embedded at two levels of arithmetic.

* The exact embedding (namespace `BoidsCPP`) follows the control flow of `Update` with
  rational velocities and unbounded integer positions: `1.9f` is `19/10`, `0.5f` is `1/2`,
  `5.0f` is `5` and `SCREEN_MARGIN = 3.5f * 15.0f` is `105/2`.  It serves the statements about
  which branch is taken, which constant a branch applies, which draws are made, and what
  the accessors return.
* The machine embedding (namespace `BoidsCPP.Machine`) has the arithmetic of the compiled
  code: `float` is IEEE 754 binary32 (round to nearest even after each operation, infinities,
  NaN) and `int` is 32 bits wide, overflow and the conversion of a NaN being undefined.  It
  serves the statements about the values of velocities and positions.

In both, the rendering library's `GetScreenWidth()` / `GetScreenHeight()` are the two integer
parameters `screenWidth`, `screenHeight` of `Update`, and the library's random generator is a
`RandomSource`: the stream of the values its successive calls return, with the number of
calls made so far.
-/

namespace BoidsCPP

/-! ## Constants (boid.h, lines 7-11) -/

/-- `const float BOID_SIZE = 3.5f;` -/
def BOID_SIZE : ℚ := 7 / 2

/-- `const float SCREEN_MARGIN = BOID_SIZE * 15.0f;` -/
def SCREEN_MARGIN : ℚ := BOID_SIZE * 15

/-- `const float MAX_VELOCITY = 5.0f;` -/
def MAX_VELOCITY : ℚ := 5

/-- `const float boundaryTurnFactor = 1.9f;` (local to `Boid::Update`, line 67). -/
def boundaryTurnFactor : ℚ := 19 / 10

/-- `const float randomTurnFactor = 0.5f;` (local to `Boid::Update`, line 68). -/
def randomTurnFactor : ℚ := 1 / 2

/-! ## Data model (boid.h, lines 14-19) -/

/-- The four private fields of `class Boid`. -/
structure Boid where
  xpos : Int
  ypos : Int
  xvel : ℚ
  yvel : ℚ
  deriving DecidableEq, Repr

/-- The constructor `Boid::Boid(int x, int y, float xvel, float yvel)` (lines 57-62):
four plain assignments. -/
def Boid.new (x y : Int) (xvel yvel : ℚ) : Boid :=
  { xpos := x, ypos := y, xvel := xvel, yvel := yvel }

/-! ## Accessors (boid.h, lines 119-151) -/

/-- `void Boid::SetXPos(int x) { this->xpos = x; }` -/
def SetXPos (x : Int) (b : Boid) : Boid :=
  { b with xpos := x }

/-- `void Boid::SetYPos(int y) { this->ypos = y; }` -/
def SetYPos (y : Int) (b : Boid) : Boid :=
  { b with ypos := y }

/-- `void Boid::SetXVel(float xvel) { this->xvel = xvel; }` -/
def SetXVel (xvel : ℚ) (b : Boid) : Boid :=
  { b with xvel := xvel }

/-- `void Boid::SetYVel(float yvel) { this->yvel = yvel; }` -/
def SetYVel (yvel : ℚ) (b : Boid) : Boid :=
  { b with yvel := yvel }

/-- `int Boid::GetXPos() const { return this->xpos; }` -/
def GetXPos (b : Boid) : Int :=
  b.xpos

/-- `int Boid::GetYPos() const { return this->ypos; }` -/
def GetYPos (b : Boid) : Int :=
  b.ypos

/-- `float Boid::GetXVel() const { return this->xvel; }` -/
def GetXVel (b : Boid) : ℚ :=
  b.xvel

/-- `float Boid::GetYVel() const { return this->yvel; }` -/
def GetYVel (b : Boid) : ℚ :=
  b.yvel

/-! ## External collaborators -/

/-- The state of the library's random generator: `outcome n` is the value returned by its
`n`-th call (counted from zero) and `calls` is the number of calls made so far. -/
structure RandomSource where
  outcome : Nat → Int
  calls : Nat

/-- Modelled from the spec: `GetRandomValue(min, max)` of the rendering library, an
inclusive-range random integer generator.  One call returns the next outcome of the source
and advances it.  The outcome is whatever the source holds; that it lies in `min..max` is a
hypothesis wherever a statement depends on it. -/
def GetRandomValue (_min _max : Int) (g : RandomSource) : Int × RandomSource :=
  (g.outcome g.calls, { g with calls := g.calls + 1 })

/-- Modelled from the spec: `Clamp(value, lo, hi)` of the rendering library's math header,
the standard clamp: `lo` when `value < lo`, else `hi` when the value exceeds `hi`, else
`value`. -/
def Clamp (value lo hi : ℚ) : ℚ :=
  let result := if value < lo then lo else value
  if result > hi then hi else result

/-- The conversion `static_cast<int>(float)`: the fractional part is discarded, that is,
the quotient of numerator by denominator rounded toward zero. -/
def truncate (v : ℚ) : Int :=
  Int.tdiv v.num (v.den : Int)

/-! ## `Boid::Update` (boid.h, lines 65-110)

The body is four blocks run in order; the working state between them is the pair of
velocities, the flag `randomTurn` and the random source. -/

/-- The local state of `Update` while the velocities are being steered. -/
structure Steering where
  xvel : ℚ
  yvel : ℚ
  randomTurn : Bool
  rng : RandomSource

/-- Lines 72-79 and 80-87, for one axis: `pos` is `xpos` (`ypos`), `extent` is
`GetScreenWidth()` (`GetScreenHeight()`), `vel` is `xvel` (`yvel`).  Returns the new
velocity and the new value of the flag `randomTurn`. -/
def boundaryAxis (pos extent : Int) (vel : ℚ) (randomTurn : Bool) : ℚ × Bool :=
  if (pos : ℚ) < SCREEN_MARGIN then
    (vel + boundaryTurnFactor, false)
  else if (pos : ℚ) > (extent : ℚ) - SCREEN_MARGIN then
    (vel - boundaryTurnFactor, false)
  else
    (vel, randomTurn)

/-- Lines 69-87: `bool randomTurn = true;` then the x test and the y test in sequence, the
one flag threaded through both. -/
def boundarySteer (screenWidth screenHeight : Int) (b : Boid) (g : RandomSource) :
    Steering :=
  let randomTurn := true
  let x := boundaryAxis b.xpos screenWidth b.xvel randomTurn
  let y := boundaryAxis b.ypos screenHeight b.yvel x.2
  { xvel := x.1, yvel := y.1, randomTurn := y.2, rng := g }

/-- Lines 90-95 and 96-101, for one axis.  `GetRandomValue(0, 100) < 20 && randomTurn`
evaluates the call first, so the first draw is always taken; the `else if` takes a second
draw exactly when the first condition was false. -/
def randomAxis (vel : ℚ) (randomTurn : Bool) (g : RandomSource) : ℚ × RandomSource :=
  let first := GetRandomValue 0 100 g
  if first.1 < 20 && randomTurn then
    (vel - randomTurnFactor, first.2)
  else
    let second := GetRandomValue 0 100 first.2
    if second.1 ≥ 80 && randomTurn then
      (vel + randomTurnFactor, second.2)
    else
      (vel, second.2)

/-- Lines 89-101: the x axis, then the y axis, on the same random source. -/
def randomSteer (s : Steering) : Steering :=
  let x := randomAxis s.xvel s.randomTurn s.rng
  let y := randomAxis s.yvel s.randomTurn x.2
  { xvel := x.1, yvel := y.1, randomTurn := s.randomTurn, rng := y.2 }

/-- The state of `Update` just before line 104: after boundary and random steering, before
the clamp. -/
def preClamp (screenWidth screenHeight : Int) (b : Boid) (g : RandomSource) : Steering :=
  randomSteer (boundarySteer screenWidth screenHeight b g)

/-- `Boid::Update()`: boundary steering, random steering, then lines 104-105 (clamp both
velocities) and lines 108-109 (add the truncated velocities to the position).  Returns the
new agent and the random source after the calls made. -/
def Update (screenWidth screenHeight : Int) (b : Boid) (g : RandomSource) :
    Boid × RandomSource :=
  let s := preClamp screenWidth screenHeight b g
  let xvel := Clamp s.xvel (-MAX_VELOCITY) MAX_VELOCITY
  let yvel := Clamp s.yvel (-MAX_VELOCITY) MAX_VELOCITY
  ({ xpos := b.xpos + truncate xvel
     ypos := b.ypos + truncate yvel
     xvel := xvel
     yvel := yvel }, s.rng)

/-- The number of calls of `GetRandomValue` that lines 90-95 (the x axis) make in one
`Update()` started on the source `g`. -/
def xDraws (screenWidth screenHeight : Int) (b : Boid) (g : RandomSource) : Nat :=
  let s := boundarySteer screenWidth screenHeight b g
  (randomAxis s.xvel s.randomTurn s.rng).2.calls - g.calls

/-- The number of calls of `GetRandomValue` that lines 96-101 (the y axis) make in one
`Update()` started on the source `g`: the calls made after those of the x axis. -/
def yDraws (screenWidth screenHeight : Int) (b : Boid) (g : RandomSource) : Nat :=
  let s := boundarySteer screenWidth screenHeight b g
  (Update screenWidth screenHeight b g).2.calls - (randomAxis s.xvel s.randomTurn s.rng).2.calls

/-! ## Sources of draws -/

/-- A random source whose every call returns `d`. -/
def constSource (d : Int) : RandomSource :=
  { outcome := fun _ => d, calls := 0 }

/-- A random source that returns the listed outcomes in order, then `0` for ever. -/
def listSource (ds : List Int) : RandomSource :=
  { outcome := fun n => ds.getD n 0, calls := 0 }

/-! ## Counting the outcomes of the random block -/

/-- All pairs `(d1, d2)` of draws in `0..100`. -/
def drawPairs : Finset (Nat × Nat) :=
  Finset.range 101 ×ˢ Finset.range 101

/-- The number of pairs `(d1, d2)` in `0..100` for which one `Update()`, run on a source whose
next two outcomes are `d1` then `d2`, changes `xvel` before the clamp by `delta`. -/
def xPairs (screenWidth screenHeight : Int) (b : Boid) (delta : ℚ) : Nat :=
  (drawPairs.filter (fun p =>
    (preClamp screenWidth screenHeight b (listSource [(p.1 : Int), (p.2 : Int)])).xvel - b.xvel
      = delta)).card

/-- The number of pairs `(d1, d2)` in `0..100` for which one `Update()`, run on a source whose
outcomes are those of `pre` (read by the x axis) and then `d1`, `d2`, changes `yvel` before
the clamp by `delta`. -/
def yPairs (screenWidth screenHeight : Int) (b : Boid) (pre : List Int) (delta : ℚ) : Nat :=
  (drawPairs.filter (fun p =>
    (preClamp screenWidth screenHeight b (listSource (pre ++ [(p.1 : Int), (p.2 : Int)]))).yvel
      - b.yvel = delta)).card

/-! ## The machine-arithmetic embedding

The same class with its arithmetic as the machine performs it: `float` is IEEE 754 binary32
with round-to-nearest-even after every operation, infinities and NaN; `int` is a 32-bit
signed integer whose overflow, and the conversion of a NaN or out-of-range `float` to `int`,
are undefined behaviour (the operation returns `none`).  Every operation is evaluated in
binary32 and rounded on its own (no wider intermediate precision, no fused multiply-add).
The two zeros of binary32 are identified: no operation of the class tells them apart. -/

namespace Machine

/-- A binary32 value: NaN, an infinity with its sign, or a finite value given by the rational
number it denotes. -/
inductive F32 where
  | nan
  | inf (negative : Bool)
  | fin (value : ℚ)
  deriving DecidableEq, Repr

/-- The number of binary digits of `n` (`fuel` bounds the recursion; `n` itself is enough). -/
def bitLength : Nat → Nat → Nat
  | 0, _ => 0
  | fuel + 1, n => if n = 0 then 0 else bitLength fuel (n / 2) + 1

/-- The exponent `e` with `2 ^ e ≤ n / d < 2 ^ (e + 1)`, for positive `n` and `d`. -/
def floorLog2 (n d : Nat) : Int :=
  let k : Int := (bitLength n n : Int) - (bitLength d d : Int)
  if 0 ≤ k then
    if d * 2 ^ k.toNat ≤ n then k else k - 1
  else
    if d ≤ n * 2 ^ (-k).toNat then k else k - 1

/-- The integer nearest to `n / d`, a tie going to the even one. -/
def roundHalfEven (n d : Nat) : Nat :=
  let quotient := n / d
  let remainder := n % d
  if 2 * remainder < d then quotient
  else if d < 2 * remainder then quotient + 1
  else if quotient % 2 = 0 then quotient
  else quotient + 1

/-- Rounding of an exact result to binary32, round-to-nearest-even: 24 significant bits,
exponents from -126 (below which the spacing stays `2 ^ (-149)`) to 127, and an infinity
when the rounded magnitude reaches `2 ^ 128`. -/
def round32 (q : ℚ) : F32 :=
  if q = 0 then F32.fin 0
  else
    let n := q.num.natAbs
    let d := q.den
    let e := floorLog2 n d
    if 128 ≤ e then F32.inf (decide (q < 0))
    else
      let s : Int := max e (-126) - 23
      let r : Nat :=
        if 0 ≤ s then roundHalfEven n (d * 2 ^ s.toNat)
        else roundHalfEven (n * 2 ^ (-s).toNat) d
      if s = 104 ∧ 2 ^ 24 ≤ r then F32.inf (decide (q < 0))
      else
        let magnitude : ℚ :=
          if 0 ≤ s then ((r * 2 ^ s.toNat : Nat) : ℚ) else mkRat (r : Int) (2 ^ (-s).toNat)
        F32.fin (if q < 0 then -magnitude else magnitude)

/-- A rational is representable in binary32 when rounding leaves it unchanged. -/
def representable (q : ℚ) : Prop :=
  round32 q = F32.fin q

instance (q : ℚ) : Decidable (representable q) :=
  inferInstanceAs (Decidable (round32 q = F32.fin q))

/-- A `float` literal or constant: the binary32 value nearest to the decimal written. -/
def F32.lit (q : ℚ) : F32 :=
  round32 q

/-- The conversion of an `int` to `float`. -/
def F32.ofInt (n : Int) : F32 :=
  round32 (n : ℚ)

/-- Unary minus. -/
def F32.neg : F32 → F32
  | F32.nan => F32.nan
  | F32.inf negative => F32.inf (!negative)
  | F32.fin v => F32.fin (-v)

/-- The binary32 sum. -/
def F32.add : F32 → F32 → F32
  | F32.nan, _ => F32.nan
  | _, F32.nan => F32.nan
  | F32.inf a, F32.inf b => if a = b then F32.inf a else F32.nan
  | F32.inf a, F32.fin _ => F32.inf a
  | F32.fin _, F32.inf b => F32.inf b
  | F32.fin v, F32.fin w => round32 (v + w)

/-- The binary32 difference. -/
def F32.sub (x y : F32) : F32 :=
  F32.add x (F32.neg y)

/-- The binary32 product. -/
def F32.mul : F32 → F32 → F32
  | F32.nan, _ => F32.nan
  | _, F32.nan => F32.nan
  | F32.inf a, F32.inf b => F32.inf (xor a b)
  | F32.inf a, F32.fin w => if w = 0 then F32.nan else F32.inf (xor a (decide (w < 0)))
  | F32.fin v, F32.inf b => if v = 0 then F32.nan else F32.inf (xor (decide (v < 0)) b)
  | F32.fin v, F32.fin w => round32 (v * w)

/-- The comparison `x < y` of two `float`s: false as soon as one is NaN. -/
def F32.lt : F32 → F32 → Bool
  | F32.nan, _ => false
  | _, F32.nan => false
  | F32.inf a, F32.inf b => a && !b
  | F32.inf a, F32.fin _ => a
  | F32.fin _, F32.inf b => !b
  | F32.fin v, F32.fin w => decide (v < w)

/-- The comparison `x > y`. -/
def F32.gt (x y : F32) : Bool :=
  F32.lt y x

/-- The comparison `x <= y`: false as soon as one is NaN. -/
def F32.le : F32 → F32 → Bool
  | F32.nan, _ => false
  | _, F32.nan => false
  | F32.inf a, F32.inf b => a || !b
  | F32.inf a, F32.fin _ => a
  | F32.fin _, F32.inf b => !b
  | F32.fin v, F32.fin w => decide (v ≤ w)

/-- The least value of a 32-bit `int`. -/
def INT_MIN : Int := -2147483648

/-- The greatest value of a 32-bit `int`. -/
def INT_MAX : Int := 2147483647

/-- The conversion `static_cast<int>(float)`: the value truncated toward zero; undefined for
NaN, for an infinity and when the truncated value is not an `int`. -/
def F32.toInt : F32 → Option Int
  | F32.fin v => if INT_MIN ≤ truncate v ∧ truncate v ≤ INT_MAX then some (truncate v) else none
  | _ => none

/-- The `int` sum `a + b`; undefined when it overflows. -/
def addInt (a b : Int) : Option Int :=
  if INT_MIN ≤ a + b ∧ a + b ≤ INT_MAX then some (a + b) else none

/-- `const float BOID_SIZE = 3.5f;` -/
def BOID_SIZE : F32 := F32.lit (7 / 2)

/-- `const float SCREEN_MARGIN = BOID_SIZE * 15.0f;` -/
def SCREEN_MARGIN : F32 := F32.mul BOID_SIZE (F32.lit 15)

/-- `const float MAX_VELOCITY = 5.0f;` -/
def MAX_VELOCITY : F32 := F32.lit 5

/-- `const float boundaryTurnFactor = 1.9f;` -/
def boundaryTurnFactor : F32 := F32.lit (19 / 10)

/-- `const float randomTurnFactor = 0.5f;` -/
def randomTurnFactor : F32 := F32.lit (1 / 2)

/-- The four private fields of `class Boid`, the velocities as binary32 values. -/
structure Boid where
  xpos : Int
  ypos : Int
  xvel : F32
  yvel : F32
  deriving DecidableEq, Repr

/-- The constructor `Boid::Boid(int x, int y, float xvel, float yvel)`. -/
def Boid.new (x y : Int) (xvel yvel : F32) : Boid :=
  { xpos := x, ypos := y, xvel := xvel, yvel := yvel }

/-- `Boid::ApplySeparation`: `xvel += moveX * avoidFactor; yvel += moveY * avoidFactor;`
(each `int` is converted to `float`, then one product and one sum). -/
def ApplySeparation (avoidFactor : F32) (moveX moveY : Int) (b : Boid) : Boid :=
  { b with
    xvel := F32.add b.xvel (F32.mul (F32.ofInt moveX) avoidFactor)
    yvel := F32.add b.yvel (F32.mul (F32.ofInt moveY) avoidFactor) }

/-- `Boid::ApplyAlignment`: `xvel += (avgXVel - xvel) * alignFactor;` and the same for
`yvel`. -/
def ApplyAlignment (alignFactor avgXVel avgYVel : F32) (b : Boid) : Boid :=
  { b with
    xvel := F32.add b.xvel (F32.mul (F32.sub avgXVel b.xvel) alignFactor)
    yvel := F32.add b.yvel (F32.mul (F32.sub avgYVel b.yvel) alignFactor) }

/-- `Boid::ApplyCohesion`: `xvel += (avgXPos - xpos) * cohesionFactor;` and the same for
`yvel` (the `int` position is converted to `float`). -/
def ApplyCohesion (cohesionFactor avgXPos avgYPos : F32) (b : Boid) : Boid :=
  { b with
    xvel := F32.add b.xvel (F32.mul (F32.sub avgXPos (F32.ofInt b.xpos)) cohesionFactor)
    yvel := F32.add b.yvel (F32.mul (F32.sub avgYPos (F32.ofInt b.ypos)) cohesionFactor) }

/-- Modelled from the spec: `Clamp(value, lo, hi)` of the rendering library's math header,
the standard clamp written with the two comparisons `value < lo` and `result > hi`. -/
def Clamp (value lo hi : F32) : F32 :=
  let result := if F32.lt value lo then lo else value
  if F32.gt result hi then hi else result

/-- The local state of `Update` while the velocities are being steered. -/
structure Steering where
  xvel : F32
  yvel : F32
  randomTurn : Bool
  rng : RandomSource

/-- Lines 72-79 and 80-87, for one axis. -/
def boundaryAxis (pos extent : Int) (vel : F32) (randomTurn : Bool) : F32 × Bool :=
  if F32.lt (F32.ofInt pos) SCREEN_MARGIN then
    (F32.add vel boundaryTurnFactor, false)
  else if F32.gt (F32.ofInt pos) (F32.sub (F32.ofInt extent) SCREEN_MARGIN) then
    (F32.sub vel boundaryTurnFactor, false)
  else
    (vel, randomTurn)

/-- Lines 69-87. -/
def boundarySteer (screenWidth screenHeight : Int) (b : Boid) (g : RandomSource) :
    Steering :=
  let randomTurn := true
  let x := boundaryAxis b.xpos screenWidth b.xvel randomTurn
  let y := boundaryAxis b.ypos screenHeight b.yvel x.2
  { xvel := x.1, yvel := y.1, randomTurn := y.2, rng := g }

/-- Lines 90-95 and 96-101, for one axis. -/
def randomAxis (vel : F32) (randomTurn : Bool) (g : RandomSource) : F32 × RandomSource :=
  let first := GetRandomValue 0 100 g
  if first.1 < 20 && randomTurn then
    (F32.sub vel randomTurnFactor, first.2)
  else
    let second := GetRandomValue 0 100 first.2
    if second.1 ≥ 80 && randomTurn then
      (F32.add vel randomTurnFactor, second.2)
    else
      (vel, second.2)

/-- Lines 89-101. -/
def randomSteer (s : Steering) : Steering :=
  let x := randomAxis s.xvel s.randomTurn s.rng
  let y := randomAxis s.yvel s.randomTurn x.2
  { xvel := x.1, yvel := y.1, randomTurn := s.randomTurn, rng := y.2 }

/-- The state of `Update` just before line 104. -/
def preClamp (screenWidth screenHeight : Int) (b : Boid) (g : RandomSource) : Steering :=
  randomSteer (boundarySteer screenWidth screenHeight b g)

/-- The velocities that lines 104-105 store: the steered velocities, clamped. -/
def clampedVelocity (screenWidth screenHeight : Int) (b : Boid) (g : RandomSource) :
    F32 × F32 :=
  let s := preClamp screenWidth screenHeight b g
  (Clamp s.xvel (F32.neg MAX_VELOCITY) MAX_VELOCITY,
    Clamp s.yvel (F32.neg MAX_VELOCITY) MAX_VELOCITY)

/-- `Boid::Update()`: the steering and the clamp, then lines 108-109,
`xpos += static_cast<int>(xvel); ypos += static_cast<int>(yvel);`.  The result is `none`
when a conversion or an addition is undefined. -/
def Update (screenWidth screenHeight : Int) (b : Boid) (g : RandomSource) :
    Option (Boid × RandomSource) :=
  let v := clampedVelocity screenWidth screenHeight b g
  match (F32.toInt v.1).bind (addInt b.xpos), (F32.toInt v.2).bind (addInt b.ypos) with
  | some x, some y =>
    some ({ xpos := x, ypos := y, xvel := v.1, yvel := v.2 },
      (preClamp screenWidth screenHeight b g).rng)
  | _, _ => none

/-- One call of a steering operation, with its arguments. -/
inductive SteerCall where
  | separation (avoidFactor : F32) (moveX moveY : Int)
  | alignment (alignFactor avgXVel avgYVel : F32)
  | cohesion (cohesionFactor avgXPos avgYPos : F32)

/-- Perform one steering call on an agent. -/
def SteerCall.apply (b : Boid) : SteerCall → Boid
  | .separation f mx my => ApplySeparation f mx my b
  | .alignment f ax ay => ApplyAlignment f ax ay b
  | .cohesion f ax ay => ApplyCohesion f ax ay b

/-- Perform a finite sequence of steering calls, first to last. -/
def applyCalls (calls : List SteerCall) (b : Boid) : Boid :=
  calls.foldl SteerCall.apply b

/-- The agent after `n` successive calls `ApplyAlignment(alignFactor, avgXVel, avgYVel)`. -/
def alignTimes (alignFactor avgXVel avgYVel : F32) : Nat → Boid → Boid
  | 0, b => b
  | n + 1, b =>
    ApplyAlignment alignFactor avgXVel avgYVel (alignTimes alignFactor avgXVel avgYVel n b)

/-- One alignment step from velocity `v` toward `a` with factor `f` involves no rounding: the
difference, the product and the sum are all representable. -/
def alignExact (f a v : ℚ) : Prop :=
  representable (a - v) ∧ representable ((a - v) * f) ∧ representable (v + (a - v) * f)

instance (f a v : ℚ) : Decidable (alignExact f a v) :=
  inferInstanceAs (Decidable (_ ∧ _ ∧ _))

/-- One cohesion step at position `pos` and velocity `v` toward `a` with factor `c` involves
no rounding: the converted position, the difference, the product and the sum are all
representable. -/
def cohesionExact (c a : ℚ) (pos : Int) (v : ℚ) : Prop :=
  representable (pos : ℚ) ∧ representable (a - (pos : ℚ)) ∧
    representable ((a - (pos : ℚ)) * c) ∧ representable (v + (a - (pos : ℚ)) * c)

instance (c a : ℚ) (pos : Int) (v : ℚ) : Decidable (cohesionExact c a pos v) :=
  inferInstanceAs (Decidable (_ ∧ _ ∧ _ ∧ _))

/-- One separation step at velocity `v` with displacement `m` and factor `f` involves no
rounding: the converted displacement, the product and the sum are all representable. -/
def sepExact (f : ℚ) (m : Int) (v : ℚ) : Prop :=
  representable (m : ℚ) ∧ representable ((m : ℚ) * f) ∧ representable (v + (m : ℚ) * f)

instance (f : ℚ) (m : Int) (v : ℚ) : Decidable (sepExact f m v) :=
  inferInstanceAs (Decidable (_ ∧ _ ∧ _))

end Machine


/-! ## Basic facts about the embedded operations -/

theorem SCREEN_MARGIN_eq : SCREEN_MARGIN = 105 / 2 := by
  norm_num [SCREEN_MARGIN, BOID_SIZE]

theorem Clamp_of_mem (v lo hi : ℚ) (h1 : lo ≤ v) (h2 : v ≤ hi) : Clamp v lo hi = v := by
  unfold Clamp
  simp only [not_lt.mpr h1, if_false, gt_iff_lt, not_lt.mpr h2]

theorem truncate_of_nonneg (v : ℚ) (h : 0 ≤ v) : truncate v = ⌊v⌋ := by
  have hn : 0 ≤ v.num := Rat.num_nonneg.mpr h
  unfold truncate
  rw [Rat.floor_def, Int.tdiv_eq_ediv hn (Int.ofNat_nonneg _)]

theorem truncate_neg (v : ℚ) : truncate (-v) = -truncate v := by
  unfold truncate
  rw [Rat.num_neg_eq_neg_num, Rat.den_neg_eq_den, Int.neg_tdiv]

theorem truncate_of_neg (v : ℚ) (h : v < 0) : truncate v = ⌈v⌉ := by
  have h1 : truncate (-v) = ⌊-v⌋ := truncate_of_nonneg (-v) (by linarith)
  rw [truncate_neg, Int.floor_neg] at h1
  omega

theorem truncate_eq (v : ℚ) : truncate v = if 0 ≤ v then ⌊v⌋ else ⌈v⌉ := by
  by_cases h : 0 ≤ v
  · simp only [h, if_true, truncate_of_nonneg v h]
  · simp only [h, if_false, truncate_of_neg v (not_le.mp h)]

theorem boundaryAxis_low (pos extent : Int) (vel : ℚ) (r : Bool)
    (h : (pos : ℚ) < SCREEN_MARGIN) :
    boundaryAxis pos extent vel r = (vel + boundaryTurnFactor, false) := by
  unfold boundaryAxis
  simp only [h, if_true]

theorem boundaryAxis_none (pos extent : Int) (vel : ℚ) (r : Bool)
    (h1 : ¬ (pos : ℚ) < SCREEN_MARGIN) (h2 : ¬ (pos : ℚ) > (extent : ℚ) - SCREEN_MARGIN) :
    boundaryAxis pos extent vel r = (vel, r) := by
  unfold boundaryAxis
  simp only [h1, h2, if_false]

/-- The flag can only be switched off by a boundary test. -/
theorem boundaryAxis_flag_false (pos extent : Int) (vel : ℚ) :
    (boundaryAxis pos extent vel false).2 = false := by
  unfold boundaryAxis
  split_ifs <;> rfl

/-- The velocity a boundary test returns does not depend on the incoming flag. -/
theorem boundaryAxis_vel (pos extent : Int) (vel : ℚ) (r : Bool) :
    (boundaryAxis pos extent vel r).1 = (boundaryAxis pos extent vel true).1 := by
  unfold boundaryAxis
  split_ifs <;> rfl

/-- With the flag off, an axis takes its two draws and leaves the velocity alone. -/
theorem randomAxis_off (vel : ℚ) (g : RandomSource) :
    randomAxis vel false g = (vel, { g with calls := g.calls + 2 }) := by
  simp [randomAxis, GetRandomValue]

/-- With the flag on, an axis follows its first draw, and its second only when the first is
at least 20. -/
theorem randomAxis_on (vel : ℚ) (g : RandomSource) :
    randomAxis vel true g =
      if g.outcome g.calls < 20 then
        (vel - randomTurnFactor, { g with calls := g.calls + 1 })
      else if g.outcome (g.calls + 1) ≥ 80 then
        (vel + randomTurnFactor, { g with calls := g.calls + 2 })
      else (vel, { g with calls := g.calls + 2 }) := by
  simp [randomAxis, GetRandomValue]

theorem Update_xpos (sw sh : Int) (b : Boid) (g : RandomSource) :
    (Update sw sh b g).1.xpos = b.xpos + truncate (Update sw sh b g).1.xvel :=
  rfl

theorem Update_ypos (sw sh : Int) (b : Boid) (g : RandomSource) :
    (Update sw sh b g).1.ypos = b.ypos + truncate (Update sw sh b g).1.yvel :=
  rfl

/-- Once a boundary test has fired, random steering changes neither velocity. -/
theorem randomSteer_off (s : Steering) (h : s.randomTurn = false) :
    (randomSteer s).xvel = s.xvel ∧ (randomSteer s).yvel = s.yvel := by
  unfold randomSteer
  simp only [h, randomAxis_off, and_self]

/-- The flag after the boundary block is off exactly when one of the four tests fired. -/
theorem boundarySteer_flag (sw sh : Int) (b : Boid) (g : RandomSource) :
    (boundarySteer sw sh b g).randomTurn = false ↔
      ((b.xpos : ℚ) < SCREEN_MARGIN ∨ (b.xpos : ℚ) > (sw : ℚ) - SCREEN_MARGIN ∨
        (b.ypos : ℚ) < SCREEN_MARGIN ∨ (b.ypos : ℚ) > (sh : ℚ) - SCREEN_MARGIN) := by
  unfold boundarySteer boundaryAxis
  split_ifs <;> simp_all

/-- The boundary block makes no draw. -/
theorem boundarySteer_rng (sw sh : Int) (b : Boid) (g : RandomSource) :
    (boundarySteer sw sh b g).rng = g :=
  rfl

/-- The velocities after the boundary block, axis by axis. -/
theorem boundarySteer_xvel (sw sh : Int) (b : Boid) (g : RandomSource) :
    (boundarySteer sw sh b g).xvel = (boundaryAxis b.xpos sw b.xvel true).1 :=
  rfl

theorem boundarySteer_yvel (sw sh : Int) (b : Boid) (g : RandomSource) :
    (boundarySteer sw sh b g).yvel = (boundaryAxis b.ypos sh b.yvel true).1 := by
  unfold boundarySteer
  exact boundaryAxis_vel _ _ _ _

/-- When one of the four boundary tests fires, the velocities that reach the clamp are the
boundary-steered ones: no draw has any effect. -/
theorem preClamp_of_contact (sw sh : Int) (b : Boid) (g : RandomSource)
    (h : (b.xpos : ℚ) < SCREEN_MARGIN ∨ (b.xpos : ℚ) > (sw : ℚ) - SCREEN_MARGIN ∨
      (b.ypos : ℚ) < SCREEN_MARGIN ∨ (b.ypos : ℚ) > (sh : ℚ) - SCREEN_MARGIN) :
    (preClamp sw sh b g).xvel = (boundaryAxis b.xpos sw b.xvel true).1 ∧
    (preClamp sw sh b g).yvel = (boundaryAxis b.ypos sh b.yvel true).1 := by
  have hf := (boundarySteer_flag sw sh b g).mpr h
  have hr := randomSteer_off (boundarySteer sw sh b g) hf
  unfold preClamp
  rw [hr.1, hr.2, boundarySteer_xvel, boundarySteer_yvel]
  exact ⟨rfl, rfl⟩

/-- With no boundary contact the flag stays on and the boundary block changes nothing. -/
theorem boundarySteer_of_no_contact (sw sh : Int) (b : Boid) (g : RandomSource)
    (hx1 : ¬ (b.xpos : ℚ) < SCREEN_MARGIN) (hx2 : ¬ (b.xpos : ℚ) > (sw : ℚ) - SCREEN_MARGIN)
    (hy1 : ¬ (b.ypos : ℚ) < SCREEN_MARGIN) (hy2 : ¬ (b.ypos : ℚ) > (sh : ℚ) - SCREEN_MARGIN) :
    (boundarySteer sw sh b g).xvel = b.xvel ∧ (boundarySteer sw sh b g).yvel = b.yvel ∧
    (boundarySteer sw sh b g).randomTurn = true := by
  unfold boundarySteer
  simp only [boundaryAxis_none _ _ _ _ hx1 hx2, boundaryAxis_none _ _ _ _ hy1 hy2, and_self]

/-- A value clamped into `[-5, 5]` truncates to an integer of absolute value at most 5. -/
theorem truncate_abs_le_five (c : ℚ) (h1 : -5 ≤ c) (h2 : c ≤ 5) : |truncate c| ≤ 5 := by
  rw [abs_le]
  by_cases h : 0 ≤ c
  · rw [truncate_of_nonneg c h]
    have hf : (0 : Int) ≤ ⌊c⌋ := Int.floor_nonneg.mpr h
    have hc : ((⌊c⌋ : Int) : ℚ) ≤ 5 := le_trans (Int.floor_le c) h2
    have hc2 : ⌊c⌋ ≤ 5 := by exact_mod_cast hc
    exact ⟨by omega, hc2⟩
  · have hn : c < 0 := not_le.mp h
    rw [truncate_of_neg c hn]
    have hu : ⌈c⌉ ≤ 0 := Int.ceil_le.mpr (by exact_mod_cast hn.le)
    have hc : (-5 : ℚ) ≤ ((⌈c⌉ : Int) : ℚ) := le_trans h1 (Int.le_ceil c)
    have hc2 : (-5 : Int) ≤ ⌈c⌉ := by exact_mod_cast hc
    exact ⟨hc2, by omega⟩

/-- The calls one axis of the random block makes: one when its first draw is below 20 and the
flag is on, two otherwise; the stream of outcomes is untouched. -/
theorem randomAxis_calls (vel : ℚ) (r : Bool) (g : RandomSource) :
    (randomAxis vel r g).2.calls
        = g.calls + (if g.outcome g.calls < 20 ∧ r = true then 1 else 2) ∧
    (randomAxis vel r g).2.outcome = g.outcome := by
  cases r
  · rw [randomAxis_off]
    simp
  · rw [randomAxis_on]
    split_ifs <;> simp_all

/-- The source returned by `Update` is the one left by the y axis of the random block. -/
theorem Update_rng (sw sh : Int) (b : Boid) (g : RandomSource) :
    (Update sw sh b g).2
      = (randomAxis (boundarySteer sw sh b g).yvel (boundarySteer sw sh b g).randomTurn
          (randomAxis (boundarySteer sw sh b g).xvel (boundarySteer sw sh b g).randomTurn
            g).2).2 :=
  rfl

/-- With no boundary contact, the velocities reaching the clamp follow the draws: the x axis
reads the next one or two outcomes, the y axis the one or two after those. -/
theorem preClamp_of_no_contact (sw sh : Int) (b : Boid) (g : RandomSource)
    (hx1 : ¬ (b.xpos : ℚ) < SCREEN_MARGIN) (hx2 : ¬ (b.xpos : ℚ) > (sw : ℚ) - SCREEN_MARGIN)
    (hy1 : ¬ (b.ypos : ℚ) < SCREEN_MARGIN) (hy2 : ¬ (b.ypos : ℚ) > (sh : ℚ) - SCREEN_MARGIN) :
    (preClamp sw sh b g).xvel =
      (if g.outcome g.calls < 20 then b.xvel - 1 / 2
       else if 80 ≤ g.outcome (g.calls + 1) then b.xvel + 1 / 2
       else b.xvel) ∧
    (g.outcome g.calls < 20 →
      (preClamp sw sh b g).yvel =
        (if g.outcome (g.calls + 1) < 20 then b.yvel - 1 / 2
         else if 80 ≤ g.outcome (g.calls + 1 + 1) then b.yvel + 1 / 2
         else b.yvel)) ∧
    (¬ g.outcome g.calls < 20 →
      (preClamp sw sh b g).yvel =
        (if g.outcome (g.calls + 2) < 20 then b.yvel - 1 / 2
         else if 80 ≤ g.outcome (g.calls + 2 + 1) then b.yvel + 1 / 2
         else b.yvel)) := by
  obtain ⟨hbx, hby, hbf⟩ := boundarySteer_of_no_contact sw sh b g hx1 hx2 hy1 hy2
  refine ⟨?_, fun h1 => ?_, fun h1 => ?_⟩
  · unfold preClamp randomSteer
    simp only [hbf, hbx, randomAxis_on, boundarySteer_rng, randomTurnFactor, ge_iff_le]
    split_ifs <;> rfl
  · unfold preClamp randomSteer
    simp only [hbf, hby, randomAxis_on, boundarySteer_rng, randomTurnFactor, ge_iff_le, h1,
      if_true]
    split_ifs <;> rfl
  · unfold preClamp randomSteer
    simp only [hbf, hby, randomAxis_on, boundarySteer_rng, randomTurnFactor, ge_iff_le, h1,
      if_false]
    by_cases h2 : 80 ≤ g.outcome (g.calls + 1)
    · simp only [h2, if_true]
      split_ifs <;> rfl
    · simp only [h2, if_false]
      split_ifs <;> rfl

/-- Of the 101 x 101 pairs of draws, 2020 make the rule of one axis subtract 0.5. -/
theorem count_subtract (v : ℚ) :
    (drawPairs.filter (fun p : Nat × Nat =>
      (if (p.1 : Int) < 20 then v - 1 / 2 else if 80 ≤ (p.2 : Int) then v + 1 / 2 else v) - v
        = -1 / 2)).card = 2020 := by
  have h : ∀ p : Nat × Nat,
      ((if (p.1 : Int) < 20 then v - 1 / 2 else if 80 ≤ (p.2 : Int) then v + 1 / 2 else v) - v
        = -1 / 2) ↔ p.1 < 20 := by
    intro p
    by_cases h1 : (p.1 : Int) < 20
    · have e : p.1 < 20 := by omega
      simp only [h1, if_true, e, iff_true]
      ring
    · have e : ¬ p.1 < 20 := by omega
      simp only [h1, if_false, e, iff_false]
      split_ifs <;> norm_num
  have hs : drawPairs.filter (fun p : Nat × Nat =>
      (if (p.1 : Int) < 20 then v - 1 / 2 else if 80 ≤ (p.2 : Int) then v + 1 / 2 else v) - v
        = -1 / 2) = (Finset.range 101).filter (fun d => d < 20) ×ˢ Finset.range 101 := by
    ext p
    simp only [drawPairs, Finset.mem_filter, Finset.mem_product, h]
    tauto
  rw [hs, Finset.card_product]
  rfl

/-- Of the 101 x 101 pairs of draws, 1701 make the rule of one axis add 0.5. -/
theorem count_add (v : ℚ) :
    (drawPairs.filter (fun p : Nat × Nat =>
      (if (p.1 : Int) < 20 then v - 1 / 2 else if 80 ≤ (p.2 : Int) then v + 1 / 2 else v) - v
        = 1 / 2)).card = 1701 := by
  have h : ∀ p : Nat × Nat,
      ((if (p.1 : Int) < 20 then v - 1 / 2 else if 80 ≤ (p.2 : Int) then v + 1 / 2 else v) - v
        = 1 / 2) ↔ (¬ p.1 < 20 ∧ 80 ≤ p.2) := by
    intro p
    by_cases h1 : (p.1 : Int) < 20
    · have e : p.1 < 20 := by omega
      simp only [h1, if_true, e, not_true_eq_false, false_and, iff_false]
      norm_num
    · have e : ¬ p.1 < 20 := by omega
      by_cases h2 : 80 ≤ (p.2 : Int)
      · have e2 : 80 ≤ p.2 := by omega
        simp only [h1, if_false, h2, if_true, e, e2, not_false_eq_true, and_self, iff_true]
        ring
      · have e2 : ¬ 80 ≤ p.2 := by omega
        simp only [h1, if_false, h2, e, e2, not_false_eq_true, and_false, iff_false]
        norm_num
  have hs : drawPairs.filter (fun p : Nat × Nat =>
      (if (p.1 : Int) < 20 then v - 1 / 2 else if 80 ≤ (p.2 : Int) then v + 1 / 2 else v) - v
        = 1 / 2)
      = (Finset.range 101).filter (fun d => ¬ d < 20)
          ×ˢ (Finset.range 101).filter (fun d => 80 ≤ d) := by
    ext p
    simp only [drawPairs, Finset.mem_filter, Finset.mem_product, h]
    tauto
  rw [hs, Finset.card_product]
  rfl

/-- Of the 101 x 101 pairs of draws, 6480 make the rule of one axis change nothing. -/
theorem count_unchanged (v : ℚ) :
    (drawPairs.filter (fun p : Nat × Nat =>
      (if (p.1 : Int) < 20 then v - 1 / 2 else if 80 ≤ (p.2 : Int) then v + 1 / 2 else v) - v
        = 0)).card = 6480 := by
  have h : ∀ p : Nat × Nat,
      ((if (p.1 : Int) < 20 then v - 1 / 2 else if 80 ≤ (p.2 : Int) then v + 1 / 2 else v) - v
        = 0) ↔ (¬ p.1 < 20 ∧ ¬ 80 ≤ p.2) := by
    intro p
    by_cases h1 : (p.1 : Int) < 20
    · have e : p.1 < 20 := by omega
      simp only [h1, if_true, e, not_true_eq_false, false_and, iff_false]
      norm_num
    · have e : ¬ p.1 < 20 := by omega
      by_cases h2 : 80 ≤ (p.2 : Int)
      · have e2 : 80 ≤ p.2 := by omega
        simp only [h1, if_false, h2, if_true, e, e2, not_false_eq_true, not_true_eq_false,
          and_false, iff_false]
        norm_num
      · have e2 : ¬ 80 ≤ p.2 := by omega
        simp only [h1, if_false, h2, e, e2, not_false_eq_true, and_self, iff_true]
        ring
  have hs : drawPairs.filter (fun p : Nat × Nat =>
      (if (p.1 : Int) < 20 then v - 1 / 2 else if 80 ≤ (p.2 : Int) then v + 1 / 2 else v) - v
        = 0)
      = (Finset.range 101).filter (fun d => ¬ d < 20)
          ×ˢ (Finset.range 101).filter (fun d => ¬ 80 ≤ d) := by
    ext p
    simp only [drawPairs, Finset.mem_filter, Finset.mem_product, h]
    tauto
  rw [hs, Finset.card_product]
  rfl

/-! ## Facts about the machine embedding -/

namespace Machine

theorem MAX_VELOCITY_eq : MAX_VELOCITY = F32.fin 5 := by decide!

theorem boundaryTurnFactor_eq : boundaryTurnFactor = F32.fin (15938355 / 8388608) := by decide!

theorem randomTurnFactor_eq : randomTurnFactor = F32.fin (1 / 2) := by decide!

theorem SCREEN_MARGIN_machine_eq : SCREEN_MARGIN = F32.fin (105 / 2) := by decide!

/-- Reference values of the rounding: a decimal literal, a tie going to the even neighbour
(`1 + 2 ^ (-24)` to 1, `1 + 3 * 2 ^ (-24)` to `1 + 2 ^ (-22)`), the largest finite value,
the overflow threshold `2 ^ 128 - 2 ^ 103`, and the smallest subnormal `2 ^ (-149)` with
the tie `2 ^ (-150)` going to zero. -/
theorem round32_reference :
    round32 (1 / 10) = F32.fin (13421773 / 134217728) ∧
    round32 (16777217 / 16777216) = F32.fin 1 ∧
    round32 (16777219 / 16777216) = F32.fin (4194305 / 4194304) ∧
    round32 340282346638528859811704183484516925440
      = F32.fin 340282346638528859811704183484516925440 ∧
    round32 340282356779733661637539395458142568447
      = F32.fin 340282346638528859811704183484516925440 ∧
    round32 340282356779733661637539395458142568448 = F32.inf false ∧
    round32 (mkRat 1 (2 ^ 149)) = F32.fin (mkRat 1 (2 ^ 149)) ∧
    round32 (mkRat 1 (2 ^ 150)) = F32.fin 0 ∧
    round32 (mkRat (-3) (2 ^ 150)) = F32.fin (mkRat (-1) (2 ^ 148)) := by
  refine ⟨by decide!, by decide!, by decide!, by decide!, by decide!, by decide!, by decide!,
    by decide!, by decide!⟩

/-- Rounding never produces a NaN. -/
theorem round32_ne_nan (q : ℚ) : round32 q ≠ F32.nan := by
  intro h
  unfold round32 at h
  dsimp only at h
  split_ifs at h

/-- Adding a finite value to a non-NaN value gives a non-NaN value. -/
theorem add_fin_ne_nan (v : F32) (c : ℚ) (h : v ≠ F32.nan) : F32.add v (F32.fin c) ≠ F32.nan := by
  cases v with
  | nan => exact absurd rfl h
  | inf a => simp [F32.add]
  | fin w => exact round32_ne_nan _

/-- Subtracting a finite value from a non-NaN value gives a non-NaN value. -/
theorem sub_fin_ne_nan (v : F32) (c : ℚ) (h : v ≠ F32.nan) : F32.sub v (F32.fin c) ≠ F32.nan :=
  add_fin_ne_nan v (-c) h

theorem lt_nan_right (v : F32) : F32.lt v F32.nan = false := by
  cases v <;> rfl

theorem lt_nan_left (v : F32) : F32.lt F32.nan v = false := by
  cases v <;> rfl

/-- A NaN passes through the clamp. -/
theorem Clamp_nan (lo hi : F32) : Clamp F32.nan lo hi = F32.nan := by
  simp [Clamp, F32.gt, lt_nan_right, lt_nan_left]

/-- A value that is not NaN is clamped to a finite value of `[-5, 5]`. -/
theorem Clamp_of_ne_nan (v : F32) (h : v ≠ F32.nan) :
    ∃ q : ℚ, Clamp v (F32.neg MAX_VELOCITY) MAX_VELOCITY = F32.fin q ∧ -5 ≤ q ∧ q ≤ 5 := by
  rw [MAX_VELOCITY_eq]
  cases v with
  | nan => exact absurd rfl h
  | inf a =>
    cases a
    · exact ⟨5, by simp [Clamp, F32.lt, F32.gt, F32.neg], by norm_num, le_refl _⟩
    · refine ⟨-5, ?_, le_refl _, by norm_num⟩
      simp [Clamp, F32.lt, F32.gt, F32.neg]
  | fin w =>
    by_cases h1 : w < -5
    · refine ⟨-5, ?_, le_refl _, by norm_num⟩
      simp [Clamp, F32.lt, F32.gt, F32.neg, h1]
    · by_cases h2 : 5 < w
      · refine ⟨5, ?_, by norm_num, le_refl _⟩
        simp [Clamp, F32.lt, F32.gt, F32.neg, h1, h2]
      · refine ⟨w, ?_, not_lt.mp h1, not_lt.mp h2⟩
        simp [Clamp, F32.lt, F32.gt, F32.neg, h1, h2]

/-- A finite value of `[-5, 5]` converts to `int`, to its truncation. -/
theorem toInt_of_bounds (q : ℚ) (h1 : -5 ≤ q) (h2 : q ≤ 5) :
    F32.toInt (F32.fin q) = some (truncate q) := by
  have h := abs_le.mp (truncate_abs_le_five q h1 h2)
  simp only [F32.toInt]
  rw [if_pos]
  unfold INT_MIN INT_MAX
  constructor <;> omega

/-- An `int` at least 5 away from both ends of its range can be moved by up to 5. -/
theorem addInt_of_safe (a d : Int) (h1 : INT_MIN + 5 ≤ a) (h2 : a ≤ INT_MAX - 5)
    (hd : |d| ≤ 5) : addInt a d = some (a + d) := by
  have h := abs_le.mp hd
  unfold addInt
  rw [if_pos]
  unfold INT_MIN INT_MAX at *
  constructor <;> omega

/-- The boundary block of one axis keeps a non-NaN velocity non-NaN. -/
theorem boundaryAxis_ne_nan (pos extent : Int) (vel : F32) (r : Bool) (h : vel ≠ F32.nan) :
    (boundaryAxis pos extent vel r).1 ≠ F32.nan := by
  unfold boundaryAxis
  rw [boundaryTurnFactor_eq]
  split_ifs
  · exact add_fin_ne_nan _ _ h
  · exact sub_fin_ne_nan _ _ h
  · exact h

/-- The random block of one axis keeps a non-NaN velocity non-NaN. -/
theorem randomAxis_ne_nan (vel : F32) (r : Bool) (g : RandomSource) (h : vel ≠ F32.nan) :
    (randomAxis vel r g).1 ≠ F32.nan := by
  unfold randomAxis
  rw [randomTurnFactor_eq]
  dsimp only
  split_ifs
  · exact sub_fin_ne_nan _ _ h
  · exact add_fin_ne_nan _ _ h
  · exact h

/-- The steering of `Update` keeps non-NaN velocities non-NaN. -/
theorem preClamp_ne_nan (sw sh : Int) (b : Boid) (g : RandomSource) :
    (b.xvel ≠ F32.nan → (preClamp sw sh b g).xvel ≠ F32.nan) ∧
    (b.yvel ≠ F32.nan → (preClamp sw sh b g).yvel ≠ F32.nan) := by
  constructor
  · intro h
    exact randomAxis_ne_nan _ _ _ (boundaryAxis_ne_nan _ _ _ _ h)
  · intro h
    exact randomAxis_ne_nan _ _ _ (boundaryAxis_ne_nan _ _ _ _ h)

theorem nan_add (v : F32) : F32.add F32.nan v = F32.nan := by
  cases v <;> rfl

theorem nan_sub (v : F32) : F32.sub F32.nan v = F32.nan :=
  nan_add _

/-- A NaN velocity at the entry of `Update` is still NaN when it reaches the clamp. -/
theorem preClamp_nan (sw sh : Int) (b : Boid) (g : RandomSource) :
    (b.xvel = F32.nan → (preClamp sw sh b g).xvel = F32.nan) ∧
    (b.yvel = F32.nan → (preClamp sw sh b g).yvel = F32.nan) := by
  constructor
  · intro h
    show (randomAxis (boundaryAxis b.xpos sw b.xvel true).1 _ _).1 = F32.nan
    rw [h]
    unfold randomAxis boundaryAxis
    dsimp only
    split_ifs <;> simp only [nan_add, nan_sub]
  · intro h
    show (randomAxis (boundaryAxis b.ypos sh b.yvel _).1 _ _).1 = F32.nan
    rw [h]
    unfold randomAxis boundaryAxis
    dsimp only
    split_ifs <;> simp only [nan_add, nan_sub]

/-- The velocities stored by the clamp lines, for velocities that are not NaN at entry. -/
theorem clampedVelocity_of_ne_nan (sw sh : Int) (b : Boid) (g : RandomSource) :
    (b.xvel ≠ F32.nan →
      ∃ q : ℚ, (clampedVelocity sw sh b g).1 = F32.fin q ∧ -5 ≤ q ∧ q ≤ 5) ∧
    (b.yvel ≠ F32.nan →
      ∃ q : ℚ, (clampedVelocity sw sh b g).2 = F32.fin q ∧ -5 ≤ q ∧ q ≤ 5) :=
  ⟨fun h => Clamp_of_ne_nan _ ((preClamp_ne_nan sw sh b g).1 h),
   fun h => Clamp_of_ne_nan _ ((preClamp_ne_nan sw sh b g).2 h)⟩

/-- The velocities stored by the clamp lines are NaN or finite values of `[-5, 5]`. -/
theorem clampedVelocity_cases (sw sh : Int) (b : Boid) (g : RandomSource) :
    ((clampedVelocity sw sh b g).1 = F32.nan ∨
      ∃ q : ℚ, (clampedVelocity sw sh b g).1 = F32.fin q ∧ -5 ≤ q ∧ q ≤ 5) ∧
    ((clampedVelocity sw sh b g).2 = F32.nan ∨
      ∃ q : ℚ, (clampedVelocity sw sh b g).2 = F32.fin q ∧ -5 ≤ q ∧ q ≤ 5) := by
  constructor
  · by_cases h : (preClamp sw sh b g).xvel = F32.nan
    · left
      show Clamp (preClamp sw sh b g).xvel _ _ = F32.nan
      rw [h, Clamp_nan]
    · right
      exact Clamp_of_ne_nan _ h
  · by_cases h : (preClamp sw sh b g).yvel = F32.nan
    · left
      show Clamp (preClamp sw sh b g).yvel _ _ = F32.nan
      rw [h, Clamp_nan]
    · right
      exact Clamp_of_ne_nan _ h

/-- The result of `Update` in terms of the clamped velocities. -/
theorem Update_of_clamped (sw sh : Int) (b : Boid) (g : RandomSource) (qx qy : ℚ)
    (hx : (clampedVelocity sw sh b g).1 = F32.fin qx) (hx1 : -5 ≤ qx) (hx2 : qx ≤ 5)
    (hy : (clampedVelocity sw sh b g).2 = F32.fin qy) (hy1 : -5 ≤ qy) (hy2 : qy ≤ 5) :
    Update sw sh b g =
      match addInt b.xpos (truncate qx), addInt b.ypos (truncate qy) with
      | some x, some y =>
        some ({ xpos := x, ypos := y, xvel := F32.fin qx, yvel := F32.fin qy },
          (preClamp sw sh b g).rng)
      | _, _ => none := by
  unfold Update
  simp only [hx, hy, toInt_of_bounds qx hx1 hx2, toInt_of_bounds qy hy1 hy2, Option.some_bind]

/-- `Update` is undefined as soon as a velocity stored by the clamp lines is NaN. -/
theorem Update_of_nan (sw sh : Int) (b : Boid) (g : RandomSource)
    (h : (clampedVelocity sw sh b g).1 = F32.nan ∨ (clampedVelocity sw sh b g).2 = F32.nan) :
    Update sw sh b g = none := by
  unfold Update
  rcases h with h | h
  · simp [h, F32.toInt]
  · simp only [h, F32.toInt, Option.none_bind]
    split <;> simp_all

/-- What a completed `Update` returns: finite velocities of `[-5, 5]`, the clamped ones, and
each position moved by the truncation of its velocity. -/
theorem Update_some_inv (sw sh : Int) (b b2 : Boid) (g g2 : RandomSource)
    (h : Update sw sh b g = some (b2, g2)) :
    ∃ qx qy : ℚ, clampedVelocity sw sh b g = (F32.fin qx, F32.fin qy) ∧
      (-5 ≤ qx ∧ qx ≤ 5) ∧ (-5 ≤ qy ∧ qy ≤ 5) ∧
      b2 = { xpos := b.xpos + truncate qx, ypos := b.ypos + truncate qy,
             xvel := F32.fin qx, yvel := F32.fin qy } ∧
      g2 = (preClamp sw sh b g).rng := by
  obtain ⟨cx, cy⟩ := clampedVelocity_cases sw sh b g
  rcases cx with cx | ⟨qx, hx, hx1, hx2⟩
  · rw [Update_of_nan sw sh b g (Or.inl cx)] at h
    exact Option.noConfusion h
  rcases cy with cy | ⟨qy, hy, hy1, hy2⟩
  · rw [Update_of_nan sw sh b g (Or.inr cy)] at h
    exact Option.noConfusion h
  refine ⟨qx, qy, Prod.ext hx hy, ⟨hx1, hx2⟩, ⟨hy1, hy2⟩, ?_⟩
  rw [Update_of_clamped sw sh b g qx qy hx hx1 hx2 hy hy1 hy2] at h
  unfold addInt at h
  split_ifs at h
  all_goals simp only [Option.some.injEq, Prod.mk.injEq] at h
  exact ⟨h.1.symm, h.2.symm⟩

/-- `Update` completes when the velocities at entry are not NaN and the position is at least
5 away from both ends of the `int` range. -/
theorem Update_defined (sw sh : Int) (b : Boid) (g : RandomSource)
    (hvx : b.xvel ≠ F32.nan) (hvy : b.yvel ≠ F32.nan)
    (hx1 : INT_MIN + 5 ≤ b.xpos) (hx2 : b.xpos ≤ INT_MAX - 5)
    (hy1 : INT_MIN + 5 ≤ b.ypos) (hy2 : b.ypos ≤ INT_MAX - 5) :
    ∃ qx qy : ℚ, clampedVelocity sw sh b g = (F32.fin qx, F32.fin qy) ∧
      Update sw sh b g =
        some ({ xpos := b.xpos + truncate qx, ypos := b.ypos + truncate qy,
                xvel := F32.fin qx, yvel := F32.fin qy }, (preClamp sw sh b g).rng) := by
  obtain ⟨qx, hx, hqx1, hqx2⟩ := (clampedVelocity_of_ne_nan sw sh b g).1 hvx
  obtain ⟨qy, hy, hqy1, hqy2⟩ := (clampedVelocity_of_ne_nan sw sh b g).2 hvy
  refine ⟨qx, qy, Prod.ext hx hy, ?_⟩
  rw [Update_of_clamped sw sh b g qx qy hx hqx1 hqx2 hy hqy1 hqy2,
    addInt_of_safe _ _ hx1 hx2 (truncate_abs_le_five qx hqx1 hqx2),
    addInt_of_safe _ _ hy1 hy2 (truncate_abs_le_five qy hqy1 hqy2)]

/-- The steering calls leave the position unchanged. -/
theorem applyCalls_pos (calls : List SteerCall) (b : Boid) :
    (applyCalls calls b).xpos = b.xpos ∧ (applyCalls calls b).ypos = b.ypos := by
  unfold applyCalls
  induction calls generalizing b with
  | nil => exact ⟨rfl, rfl⟩
  | cons c cs ih =>
    rw [List.foldl_cons]
    have hc : (SteerCall.apply b c).xpos = b.xpos ∧ (SteerCall.apply b c).ypos = b.ypos := by
      cases c <;> exact ⟨rfl, rfl⟩
    rw [(ih (SteerCall.apply b c)).1, (ih (SteerCall.apply b c)).2]
    exact hc

/-- When the boundary tests of the x axis do not fire and its draws steer nothing, the x
velocity reaches the clamp unchanged. -/
theorem preClamp_xvel_unchanged (sw sh : Int) (b : Boid) (g : RandomSource)
    (h1 : F32.lt (F32.ofInt b.xpos) SCREEN_MARGIN = false)
    (h2 : F32.gt (F32.ofInt b.xpos) (F32.sub (F32.ofInt sw) SCREEN_MARGIN) = false)
    (h3 : 20 ≤ g.outcome g.calls) (h4 : g.outcome (g.calls + 1) < 80) :
    (preClamp sw sh b g).xvel = b.xvel := by
  have hb : boundaryAxis b.xpos sw b.xvel true = (b.xvel, true) := by
    unfold boundaryAxis
    simp [h1, h2]
  show (randomAxis (boundaryAxis b.xpos sw b.xvel true).1 _ g).1 = b.xvel
  rw [hb]
  unfold randomAxis GetRandomValue
  simp [not_lt.mpr h3, not_le.mpr h4]

/-- A sum whose exact value is representable is that value. -/
theorem add_exact (v w : ℚ) (h : representable (v + w)) :
    F32.add (F32.fin v) (F32.fin w) = F32.fin (v + w) :=
  h

/-- A difference whose exact value is representable is that value. -/
theorem sub_exact (v w : ℚ) (h : representable (v - w)) :
    F32.sub (F32.fin v) (F32.fin w) = F32.fin (v - w) := by
  show round32 (v + -w) = F32.fin (v - w)
  rw [← sub_eq_add_neg]
  exact h

/-- A product whose exact value is representable is that value. -/
theorem mul_exact (v w : ℚ) (h : representable (v * w)) :
    F32.mul (F32.fin v) (F32.fin w) = F32.fin (v * w) :=
  h

/-- The conversion of a representable `int` is that integer. -/
theorem ofInt_exact (n : Int) (h : representable (n : ℚ)) : F32.ofInt n = F32.fin (n : ℚ) :=
  h

/-- An alignment step without rounding computes `v + (a - v) * f`. -/
theorem alignStep_exact (f a v : ℚ) (h : alignExact f a v) :
    F32.add (F32.fin v) (F32.mul (F32.sub (F32.fin a) (F32.fin v)) (F32.fin f))
      = F32.fin (v + (a - v) * f) := by
  rw [sub_exact _ _ h.1, mul_exact _ _ h.2.1, add_exact _ _ h.2.2]

/-- A cohesion step without rounding computes `v + (a - pos) * c`. -/
theorem cohesionStep_exact (c a : ℚ) (pos : Int) (v : ℚ) (h : cohesionExact c a pos v) :
    F32.add (F32.fin v) (F32.mul (F32.sub (F32.fin a) (F32.ofInt pos)) (F32.fin c))
      = F32.fin (v + (a - (pos : ℚ)) * c) := by
  rw [ofInt_exact _ h.1, sub_exact _ _ h.2.1, mul_exact _ _ h.2.2.1, add_exact _ _ h.2.2.2]

/-- A separation step without rounding computes `v + m * f`. -/
theorem sepStep_exact (f : ℚ) (m : Int) (v : ℚ) (h : sepExact f m v) :
    F32.add (F32.fin v) (F32.mul (F32.ofInt m) (F32.fin f)) = F32.fin (v + (m : ℚ) * f) := by
  rw [ofInt_exact _ h.1, mul_exact _ _ h.2.1, add_exact _ _ h.2.2]

/-- After `n` calls with factor 1/2 and no rounding, the x velocity is the target minus the
initial distance divided by `2 ^ n`. -/
theorem alignTimes_xvel_exact (ax vx : ℚ) (ay : F32) (b : Boid) (n : Nat)
    (hb : b.xvel = F32.fin vx)
    (hex : ∀ k : Nat, k < n → alignExact (1 / 2) ax (ax - (ax - vx) / 2 ^ k)) :
    (alignTimes (F32.fin (1 / 2)) (F32.fin ax) ay n b).xvel
      = F32.fin (ax - (ax - vx) / 2 ^ n) := by
  induction n with
  | zero =>
    show b.xvel = _
    rw [hb]
    congr 1
    ring
  | succ n ih =>
    have hn := ih (fun k hk => hex k (Nat.lt_succ_of_lt hk))
    show F32.add (alignTimes _ _ ay n b).xvel
      (F32.mul (F32.sub (F32.fin ax) (alignTimes _ _ ay n b).xvel) (F32.fin (1 / 2))) = _
    rw [hn, alignStep_exact _ _ _ (hex n (Nat.lt_succ_self n))]
    congr 1
    rw [pow_succ]
    field_simp
    ring

/-- The same on the y axis. -/
theorem alignTimes_yvel_exact (ay vy : ℚ) (ax : F32) (b : Boid) (n : Nat)
    (hb : b.yvel = F32.fin vy)
    (hex : ∀ k : Nat, k < n → alignExact (1 / 2) ay (ay - (ay - vy) / 2 ^ k)) :
    (alignTimes (F32.fin (1 / 2)) ax (F32.fin ay) n b).yvel
      = F32.fin (ay - (ay - vy) / 2 ^ n) := by
  induction n with
  | zero =>
    show b.yvel = _
    rw [hb]
    congr 1
    ring
  | succ n ih =>
    have hn := ih (fun k hk => hex k (Nat.lt_succ_of_lt hk))
    show F32.add (alignTimes _ ax _ n b).yvel
      (F32.mul (F32.sub (F32.fin ay) (alignTimes _ ax _ n b).yvel) (F32.fin (1 / 2))) = _
    rw [hn, alignStep_exact _ _ _ (hex n (Nat.lt_succ_self n))]
    congr 1
    rw [pow_succ]
    field_simp
    ring

/-- Halving a distance moves toward the target without crossing it. -/
theorem halving_monotone (a v : ℚ) (n : Nat) :
    (v ≤ a → a - (a - v) / 2 ^ n ≤ a - (a - v) / 2 ^ (n + 1) ∧
      a - (a - v) / 2 ^ (n + 1) ≤ a) ∧
    (a ≤ v → a ≤ a - (a - v) / 2 ^ (n + 1) ∧
      a - (a - v) / 2 ^ (n + 1) ≤ a - (a - v) / 2 ^ n) := by
  have hp : (0 : ℚ) < 2 ^ n := by positivity
  have hx : (a - v) / 2 ^ (n + 1) = (a - v) / 2 ^ n / 2 := by
    rw [pow_succ]; field_simp
  constructor
  · intro h
    have e : 0 ≤ (a - v) / 2 ^ n := div_nonneg (by linarith) hp.le
    constructor <;> linarith
  · intro h
    have e : (a - v) / 2 ^ n ≤ 0 := div_nonpos_of_nonpos_of_nonneg (by linarith) hp.le
    constructor <;> linarith

/-- Scaling a non-zero distance by a factor of absolute value above one enlarges it. -/
theorem abs_scale_grows (a e : ℚ) (ha : 2 < a ∨ a < 0) (he : e ≠ 0) :
    |e| < |(1 - a) * e| := by
  have h1 : 1 < |1 - a| := by
    rcases ha with h | h
    · rw [abs_of_neg (by linarith)]; linarith
    · rw [abs_of_pos (by linarith)]; linarith
  have h2 : 0 < |e| := abs_pos.mpr he
  rw [abs_mul]
  nlinarith

end Machine

/-! ## The claims -/

/-- C4 (end-to-end scenario): the agent constructed at (10, 10) with zero velocity, on an
800x600 screen, has after one `Update()` velocity (1.9, 1.9) and position (11, 11), whatever
the draws: both low boundary tests fire, random steering is off, and the clamp changes
nothing. -/
theorem end_to_end_scenario (g : RandomSource) :
    (Update 800 600 (Boid.new 10 10 0 0) g).1
        = { xpos := 11, ypos := 11, xvel := 19 / 10, yvel := 19 / 10 } ∧
    (boundarySteer 800 600 (Boid.new 10 10 0 0) g).randomTurn = false ∧
    (preClamp 800 600 (Boid.new 10 10 0 0) g).xvel = 19 / 10 ∧
    (preClamp 800 600 (Boid.new 10 10 0 0) g).yvel = 19 / 10 := by
  have hx : (((Boid.new 10 10 0 0).xpos : Int) : ℚ) < SCREEN_MARGIN := by
    norm_num [Boid.new, SCREEN_MARGIN_eq]
  have hy : (((Boid.new 10 10 0 0).ypos : Int) : ℚ) < SCREEN_MARGIN := by
    norm_num [Boid.new, SCREEN_MARGIN_eq]
  have hp := preClamp_of_contact 800 600 (Boid.new 10 10 0 0) g (Or.inl hx)
  rw [boundaryAxis_low _ _ _ _ hx, boundaryAxis_low _ _ _ _ hy] at hp
  have hpx : (preClamp 800 600 (Boid.new 10 10 0 0) g).xvel = 19 / 10 := by
    rw [hp.1]; norm_num [Boid.new, boundaryTurnFactor]
  have hpy : (preClamp 800 600 (Boid.new 10 10 0 0) g).yvel = 19 / 10 := by
    rw [hp.2]; norm_num [Boid.new, boundaryTurnFactor]
  have hc : Clamp (19 / 10) (-MAX_VELOCITY) MAX_VELOCITY = 19 / 10 :=
    Clamp_of_mem _ _ _ (by norm_num [MAX_VELOCITY]) (by norm_num [MAX_VELOCITY])
  have ht : truncate (19 / 10) = 1 := by decide!
  refine ⟨?_, (boundarySteer_flag _ _ _ g).mpr (Or.inl hx), hpx, hpy⟩
  unfold Update
  simp only [hpx, hpy, hc, ht]
  rfl

/-- C5 (shared suppression of random steering): when at least one of the four boundary tests
holds, the agent after `Update()` is the same for any two random sources; and then the
velocities reaching the clamp are the boundary-steered ones on both axes, so a contact on
one axis also switches off random steering of the other. -/
theorem random_steering_suppressed (screenWidth screenHeight : Int) (b : Boid)
    (g g2 : RandomSource)
    (h : (b.xpos : ℚ) < 105 / 2 ∨ (b.xpos : ℚ) > (screenWidth : ℚ) - 105 / 2 ∨
      (b.ypos : ℚ) < 105 / 2 ∨ (b.ypos : ℚ) > (screenHeight : ℚ) - 105 / 2) :
    (Update screenWidth screenHeight b g).1 = (Update screenWidth screenHeight b g2).1 ∧
    (preClamp screenWidth screenHeight b g).xvel
        = (boundarySteer screenWidth screenHeight b g).xvel ∧
    (preClamp screenWidth screenHeight b g).yvel
        = (boundarySteer screenWidth screenHeight b g).yvel := by
  rw [← SCREEN_MARGIN_eq] at h
  have h1 := preClamp_of_contact screenWidth screenHeight b g h
  have h2 := preClamp_of_contact screenWidth screenHeight b g2 h
  refine ⟨?_, ?_, ?_⟩
  · unfold Update
    simp only [h1.1, h1.2, h2.1, h2.2]
  · rw [h1.1, boundarySteer_xvel]
  · rw [h1.2, boundarySteer_yvel]

/-- Witness of C5: a contact on the y axis alone (`ypos = 10`, `xpos = 400` on an 800x600
screen), with a source of draws all 0 and a source of draws all 100. -/
theorem random_steering_suppressed_witness :
    (Update 800 600 (Boid.new 400 10 1 1) (constSource 0)).1
        = (Update 800 600 (Boid.new 400 10 1 1) (constSource 100)).1 ∧
    (preClamp 800 600 (Boid.new 400 10 1 1) (constSource 0)).xvel
        = (boundarySteer 800 600 (Boid.new 400 10 1 1) (constSource 0)).xvel ∧
    (preClamp 800 600 (Boid.new 400 10 1 1) (constSource 0)).yvel
        = (boundarySteer 800 600 (Boid.new 400 10 1 1) (constSource 0)).yvel :=
  random_steering_suppressed 800 600 (Boid.new 400 10 1 1) (constSource 0) (constSource 100)
    (Or.inr (Or.inr (Or.inl (by norm_num [Boid.new]))))

/-- C12 (construction and accessors): the constructor stores its four arguments verbatim, so
the four getters return them, for all values; each setter followed by its getter returns
the value set and leaves the other three fields as they were. -/
theorem construction_and_accessors (x y : Int) (xvel yvel : ℚ) (b : Boid) :
    (GetXPos (Boid.new x y xvel yvel) = x ∧ GetYPos (Boid.new x y xvel yvel) = y ∧
      GetXVel (Boid.new x y xvel yvel) = xvel ∧ GetYVel (Boid.new x y xvel yvel) = yvel) ∧
    (GetXPos (SetXPos x b) = x ∧ GetYPos (SetXPos x b) = GetYPos b ∧
      GetXVel (SetXPos x b) = GetXVel b ∧ GetYVel (SetXPos x b) = GetYVel b) ∧
    (GetYPos (SetYPos y b) = y ∧ GetXPos (SetYPos y b) = GetXPos b ∧
      GetXVel (SetYPos y b) = GetXVel b ∧ GetYVel (SetYPos y b) = GetYVel b) ∧
    (GetXVel (SetXVel xvel b) = xvel ∧ GetXPos (SetXVel xvel b) = GetXPos b ∧
      GetYPos (SetXVel xvel b) = GetYPos b ∧ GetYVel (SetXVel xvel b) = GetYVel b) ∧
    (GetYVel (SetYVel yvel b) = yvel ∧ GetXPos (SetYVel yvel b) = GetXPos b ∧
      GetYPos (SetYVel yvel b) = GetYPos b ∧ GetXVel (SetYVel yvel b) = GetXVel b) :=
  ⟨⟨rfl, rfl, rfl, rfl⟩, ⟨rfl, rfl, rfl, rfl⟩, ⟨rfl, rfl, rfl, rfl⟩, ⟨rfl, rfl, rfl, rfl⟩,
    ⟨rfl, rfl, rfl, rfl⟩⟩

/-- C13 (random-draw consumption): one `Update()` advances the random source by the draws of
the x axis followed by those of the y axis; each axis makes one or two draws, so at most four
in all; an axis makes its second draw exactly when its first draw is at least 20 or a
boundary contact occurred; with a boundary contact exactly four draws are made. -/
theorem random_draw_consumption (screenWidth screenHeight : Int) (b : Boid)
    (g : RandomSource) :
    (Update screenWidth screenHeight b g).2.calls
        = g.calls + xDraws screenWidth screenHeight b g
          + yDraws screenWidth screenHeight b g ∧
    (Update screenWidth screenHeight b g).2.outcome = g.outcome ∧
    (1 ≤ xDraws screenWidth screenHeight b g ∧ xDraws screenWidth screenHeight b g ≤ 2) ∧
    (1 ≤ yDraws screenWidth screenHeight b g ∧ yDraws screenWidth screenHeight b g ≤ 2) ∧
    xDraws screenWidth screenHeight b g + yDraws screenWidth screenHeight b g ≤ 4 ∧
    (xDraws screenWidth screenHeight b g = 2 ↔
      (20 ≤ g.outcome g.calls ∨
        ((b.xpos : ℚ) < 105 / 2 ∨ (b.xpos : ℚ) > (screenWidth : ℚ) - 105 / 2 ∨
          (b.ypos : ℚ) < 105 / 2 ∨ (b.ypos : ℚ) > (screenHeight : ℚ) - 105 / 2))) ∧
    (yDraws screenWidth screenHeight b g = 2 ↔
      (20 ≤ g.outcome (g.calls + xDraws screenWidth screenHeight b g) ∨
        ((b.xpos : ℚ) < 105 / 2 ∨ (b.xpos : ℚ) > (screenWidth : ℚ) - 105 / 2 ∨
          (b.ypos : ℚ) < 105 / 2 ∨ (b.ypos : ℚ) > (screenHeight : ℚ) - 105 / 2))) ∧
    (((b.xpos : ℚ) < 105 / 2 ∨ (b.xpos : ℚ) > (screenWidth : ℚ) - 105 / 2 ∨
        (b.ypos : ℚ) < 105 / 2 ∨ (b.ypos : ℚ) > (screenHeight : ℚ) - 105 / 2) →
      (Update screenWidth screenHeight b g).2.calls = g.calls + 4) := by
  rw [← SCREEN_MARGIN_eq]
  have hflag := boundarySteer_flag screenWidth screenHeight b g
  have hx := randomAxis_calls (boundarySteer screenWidth screenHeight b g).xvel
    (boundarySteer screenWidth screenHeight b g).randomTurn g
  have hy := randomAxis_calls (boundarySteer screenWidth screenHeight b g).yvel
    (boundarySteer screenWidth screenHeight b g).randomTurn
    (randomAxis (boundarySteer screenWidth screenHeight b g).xvel
      (boundarySteer screenWidth screenHeight b g).randomTurn g).2
  rw [← Update_rng] at hy
  have hxd : xDraws screenWidth screenHeight b g
      = (if g.outcome g.calls < 20 ∧
          (boundarySteer screenWidth screenHeight b g).randomTurn = true then 1 else 2) := by
    unfold xDraws
    simp only [boundarySteer_rng, hx.1, add_tsub_cancel_left]
  have hyd : yDraws screenWidth screenHeight b g
      = (if g.outcome (g.calls + xDraws screenWidth screenHeight b g) < 20 ∧
          (boundarySteer screenWidth screenHeight b g).randomTurn = true then 1 else 2) := by
    rw [hxd]
    unfold yDraws
    simp only [boundarySteer_rng, hy.1, hx.1, hx.2, add_tsub_cancel_left]
  have hcalls : (Update screenWidth screenHeight b g).2.calls
      = g.calls + xDraws screenWidth screenHeight b g
        + yDraws screenWidth screenHeight b g := by
    rw [hy.1, hx.1, hx.2, hyd, hxd]
  refine ⟨hcalls, by rw [hy.2, hx.2], ?_, ?_, ?_, ?_, ?_, ?_⟩
  · rw [hxd]; split_ifs <;> decide
  · rw [hyd]; split_ifs <;> decide
  · rw [hxd, hyd]; split_ifs <;> decide
  · rw [hxd, ← hflag]
    cases hr : (boundarySteer screenWidth screenHeight b g).randomTurn
    · simp
    · by_cases h : g.outcome g.calls < 20
      · simp [h]
      · simp [h, not_lt.mp h]
  · rw [hyd, ← hflag]
    cases hr : (boundarySteer screenWidth screenHeight b g).randomTurn
    · simp
    · by_cases h : g.outcome (g.calls + xDraws screenWidth screenHeight b g) < 20
      · simp [h]
      · simp [h, not_lt.mp h]
  · intro hc
    have hf := hflag.mpr hc
    rw [hcalls, hyd, hxd]
    simp [hf]

/-- Witness of C13: an agent in boundary contact (`xpos = 10`) on an 800x600 screen, where
all draws are 0, still makes four draws. -/
theorem random_draw_consumption_witness :
    (Update 800 600 (Boid.new 10 300 0 0) (constSource 0)).2.calls
      = (constSource 0).calls + 4 :=
  (random_draw_consumption 800 600 (Boid.new 10 300 0 0) (constSource 0)).2.2.2.2.2.2.2
    (Or.inl (by norm_num [Boid.new]))

/-- C14 (random steering is biased toward the negative direction): for an agent with no
boundary contact, of the 101 x 101 = 10201 pairs `(d1, d2)` of draws in `0..100` that an axis
can read, exactly 2020 subtract 0.5 from its velocity, exactly 1701 add 0.5 and exactly 6480
leave it unchanged; this holds for the x axis and, after either one or two draws of the x
axis, for the y axis.  So subtracting is strictly more frequent than adding, and neither
frequency is exactly one fifth. -/
theorem random_steering_bias (screenWidth screenHeight : Int) (b : Boid)
    (hx1 : (105 / 2 : ℚ) ≤ (b.xpos : ℚ)) (hx2 : (b.xpos : ℚ) ≤ (screenWidth : ℚ) - 105 / 2)
    (hy1 : (105 / 2 : ℚ) ≤ (b.ypos : ℚ)) (hy2 : (b.ypos : ℚ) ≤ (screenHeight : ℚ) - 105 / 2) :
    drawPairs.card = 10201 ∧
    (xPairs screenWidth screenHeight b (-1 / 2) = 2020 ∧
      xPairs screenWidth screenHeight b (1 / 2) = 1701 ∧
      xPairs screenWidth screenHeight b 0 = 6480) ∧
    (∀ x1 : Int, x1 < 20 →
      yPairs screenWidth screenHeight b [x1] (-1 / 2) = 2020 ∧
      yPairs screenWidth screenHeight b [x1] (1 / 2) = 1701 ∧
      yPairs screenWidth screenHeight b [x1] 0 = 6480) ∧
    (∀ x1 x2 : Int, 20 ≤ x1 →
      yPairs screenWidth screenHeight b [x1, x2] (-1 / 2) = 2020 ∧
      yPairs screenWidth screenHeight b [x1, x2] (1 / 2) = 1701 ∧
      yPairs screenWidth screenHeight b [x1, x2] 0 = 6480) ∧
    xPairs screenWidth screenHeight b (1 / 2) < xPairs screenWidth screenHeight b (-1 / 2) ∧
    ((xPairs screenWidth screenHeight b (-1 / 2) : ℚ) / (drawPairs.card : ℚ) ≠ 1 / 5) ∧
    ((xPairs screenWidth screenHeight b (1 / 2) : ℚ) / (drawPairs.card : ℚ) ≠ 1 / 5) := by
  rw [← SCREEN_MARGIN_eq] at hx1 hx2 hy1 hy2
  have hrule := fun g => preClamp_of_no_contact screenWidth screenHeight b g
    (not_lt.mpr hx1) (not_lt.mpr hx2) (not_lt.mpr hy1) (not_lt.mpr hy2)
  have hcard : drawPairs.card = 10201 := by
    unfold drawPairs
    rw [Finset.card_product]
    rfl
  have hxv : ∀ p : Nat × Nat,
      (preClamp screenWidth screenHeight b (listSource [(p.1 : Int), (p.2 : Int)])).xvel
        = (if (p.1 : Int) < 20 then b.xvel - 1 / 2
           else if 80 ≤ (p.2 : Int) then b.xvel + 1 / 2 else b.xvel) := by
    intro p
    rw [(hrule _).1]
    simp [listSource]
  have hy1v : ∀ x1 : Int, x1 < 20 → ∀ p : Nat × Nat,
      (preClamp screenWidth screenHeight b
          (listSource ([x1] ++ [(p.1 : Int), (p.2 : Int)]))).yvel
        = (if (p.1 : Int) < 20 then b.yvel - 1 / 2
           else if 80 ≤ (p.2 : Int) then b.yvel + 1 / 2 else b.yvel) := by
    intro x1 h1 p
    rw [(hrule _).2.1 (by simpa [listSource] using h1)]
    simp [listSource]
  have hy2v : ∀ x1 x2 : Int, 20 ≤ x1 → ∀ p : Nat × Nat,
      (preClamp screenWidth screenHeight b
          (listSource ([x1, x2] ++ [(p.1 : Int), (p.2 : Int)]))).yvel
        = (if (p.1 : Int) < 20 then b.yvel - 1 / 2
           else if 80 ≤ (p.2 : Int) then b.yvel + 1 / 2 else b.yvel) := by
    intro x1 x2 h1 p
    rw [(hrule _).2.2 (by simpa [listSource] using h1)]
    simp [listSource]
  have hX : xPairs screenWidth screenHeight b (-1 / 2) = 2020 ∧
      xPairs screenWidth screenHeight b (1 / 2) = 1701 ∧
      xPairs screenWidth screenHeight b 0 = 6480 := by
    simp only [xPairs, hxv]
    exact ⟨count_subtract _, count_add _, count_unchanged _⟩
  refine ⟨hcard, hX, fun x1 h1 => ?_, fun x1 x2 h1 => ?_, ?_, ?_, ?_⟩
  · simp only [yPairs, hy1v x1 h1]
    exact ⟨count_subtract _, count_add _, count_unchanged _⟩
  · simp only [yPairs, hy2v x1 x2 h1]
    exact ⟨count_subtract _, count_add _, count_unchanged _⟩
  · rw [hX.1, hX.2.1]
    decide
  · rw [hX.1, hcard]
    norm_num
  · rw [hX.2.1, hcard]
    norm_num

/-- Witness of C14: the agent at (400, 300) on an 800x600 screen. -/
theorem random_steering_bias_witness :
    xPairs 800 600 (Boid.new 400 300 0 0) (-1 / 2) = 2020 ∧
    xPairs 800 600 (Boid.new 400 300 0 0) (1 / 2) = 1701 ∧
    xPairs 800 600 (Boid.new 400 300 0 0) 0 = 6480 :=
  (random_steering_bias 800 600 (Boid.new 400 300 0 0)
    (by norm_num [Boid.new]) (by norm_num [Boid.new]) (by norm_num [Boid.new])
    (by norm_num [Boid.new])).2.1

/-! ## The claims on values -/

namespace Machine

/-- Counterexample to C1 as stated: from the agent (400, 300) at rest, the two calls
`ApplySeparation(3e38f, 2, 0)` and `ApplySeparation(3e38f, -2, 0)`, with finite arguments,
bring `xvel` to infinity and then to NaN; the NaN passes through the clamp, so neither
`-5 <= xvel` nor `xvel <= 5` holds for the velocity `Update()` stores, and its conversion to
`int` is undefined.  And at `xpos = INT_MAX` with velocity 10 the position sum of `Update()`
overflows. -/
theorem clamp_invariant_counterexample :
    F32.lit 300000000000000000000000000000000000000 = F32.fin 300000000549775575777803994281145270272 ∧
    (applyCalls [SteerCall.separation (F32.lit 300000000000000000000000000000000000000) 2 0]
      (Boid.new 400 300 (F32.lit 0) (F32.lit 0))).xvel = F32.inf false ∧
    (applyCalls [SteerCall.separation (F32.lit 300000000000000000000000000000000000000) 2 0,
        SteerCall.separation (F32.lit 300000000000000000000000000000000000000) (-2) 0]
      (Boid.new 400 300 (F32.lit 0) (F32.lit 0))).xvel = F32.nan ∧
    (clampedVelocity 800 600
      (applyCalls [SteerCall.separation (F32.lit 300000000000000000000000000000000000000) 2 0,
          SteerCall.separation (F32.lit 300000000000000000000000000000000000000) (-2) 0]
        (Boid.new 400 300 (F32.lit 0) (F32.lit 0))) (constSource 0)).1 = F32.nan ∧
    F32.le (F32.lit (-5)) F32.nan = false ∧
    F32.le F32.nan (F32.lit 5) = false ∧
    Update 800 600
      (applyCalls [SteerCall.separation (F32.lit 300000000000000000000000000000000000000) 2 0,
          SteerCall.separation (F32.lit 300000000000000000000000000000000000000) (-2) 0]
        (Boid.new 400 300 (F32.lit 0) (F32.lit 0))) (constSource 0) = none ∧
    Update 800 600 (Boid.new 2147483647 300 (F32.lit 10) (F32.lit 0)) (constSource 0)
      = none := by
  refine ⟨by decide!, by decide!, by decide!, by decide!, by decide!, by decide!, ?_, ?_⟩
  · exact Update_of_nan _ _ _ _ (Or.inl (by decide!))
  · exact Option.isNone_iff_eq_none.mp (by decide!)

/-- C1 amended (clamp invariant): after any finite sequence of `ApplySeparation` /
`ApplyAlignment` / `ApplyCohesion` calls, for every screen size and all draws, every
`Update()` that completes leaves both velocities finite and in `[-5, 5]`; the velocity an
axis stores at the clamp lines is in `[-5, 5]` whenever that velocity is not NaN when
`Update()` is entered; `Update()` completes whenever neither velocity is NaN at entry and
the position is at least 5 away from both ends of the `int` range; and a velocity that is
NaN at entry is still NaN after the clamp lines. -/
theorem clamp_invariant_defined (b : Boid) (calls : List SteerCall)
    (screenWidth screenHeight : Int) (g : RandomSource) :
    (∀ (b2 : Boid) (g2 : RandomSource),
      Update screenWidth screenHeight (applyCalls calls b) g = some (b2, g2) →
      ∃ qx qy : ℚ, b2.xvel = F32.fin qx ∧ b2.yvel = F32.fin qy ∧
        -5 ≤ qx ∧ qx ≤ 5 ∧ -5 ≤ qy ∧ qy ≤ 5) ∧
    ((applyCalls calls b).xvel ≠ F32.nan →
      ∃ qx : ℚ, (clampedVelocity screenWidth screenHeight (applyCalls calls b) g).1
          = F32.fin qx ∧ -5 ≤ qx ∧ qx ≤ 5) ∧
    ((applyCalls calls b).yvel ≠ F32.nan →
      ∃ qy : ℚ, (clampedVelocity screenWidth screenHeight (applyCalls calls b) g).2
          = F32.fin qy ∧ -5 ≤ qy ∧ qy ≤ 5) ∧
    ((applyCalls calls b).xvel ≠ F32.nan → (applyCalls calls b).yvel ≠ F32.nan →
      INT_MIN + 5 ≤ b.xpos → b.xpos ≤ INT_MAX - 5 →
      INT_MIN + 5 ≤ b.ypos → b.ypos ≤ INT_MAX - 5 →
      ∃ (b2 : Boid) (g2 : RandomSource),
        Update screenWidth screenHeight (applyCalls calls b) g = some (b2, g2)) ∧
    ((applyCalls calls b).xvel = F32.nan →
      (clampedVelocity screenWidth screenHeight (applyCalls calls b) g).1 = F32.nan) ∧
    ((applyCalls calls b).yvel = F32.nan →
      (clampedVelocity screenWidth screenHeight (applyCalls calls b) g).2 = F32.nan) := by
  refine ⟨fun b2 g2 h => ?_, (clampedVelocity_of_ne_nan _ _ _ _).1,
    (clampedVelocity_of_ne_nan _ _ _ _).2, fun hvx hvy hx1 hx2 hy1 hy2 => ?_,
    fun h => ?_, fun h => ?_⟩
  · obtain ⟨qx, qy, -, hx, hy, hb, -⟩ := Update_some_inv _ _ _ _ _ _ h
    refine ⟨qx, qy, ?_, ?_, hx.1, hx.2, hy.1, hy.2⟩ <;> rw [hb]
  · rw [← (applyCalls_pos calls b).1] at hx1 hx2
    rw [← (applyCalls_pos calls b).2] at hy1 hy2
    obtain ⟨qx, qy, -, h⟩ := Update_defined screenWidth screenHeight (applyCalls calls b) g
      hvx hvy hx1 hx2 hy1 hy2
    exact ⟨_, _, h⟩
  · show Clamp (preClamp screenWidth screenHeight (applyCalls calls b) g).xvel _ _ = F32.nan
    rw [(preClamp_nan _ _ _ _).1 h, Clamp_nan]
  · show Clamp (preClamp screenWidth screenHeight (applyCalls calls b) g).yvel _ _ = F32.nan
    rw [(preClamp_nan _ _ _ _).2 h, Clamp_nan]

/-- Witness of C1 amended: the agent (400, 300) at rest after one call of each steering
operation, on an 800x600 screen with all draws 50. -/
theorem clamp_invariant_defined_witness :
    ∃ (b2 : Boid) (g2 : RandomSource),
      Update 800 600
        (applyCalls
          [SteerCall.separation (F32.lit (1 / 20)) 7 (-3),
            SteerCall.alignment (F32.lit (1 / 2)) (F32.lit 2) (F32.lit (-1)),
            SteerCall.cohesion (F32.lit (1 / 100)) (F32.lit 150) (F32.lit 60)]
          (Boid.new 400 300 (F32.lit 0) (F32.lit 0)))
        (constSource 50) = some (b2, g2) :=
  (clamp_invariant_defined (Boid.new 400 300 (F32.lit 0) (F32.lit 0))
    [SteerCall.separation (F32.lit (1 / 20)) 7 (-3),
      SteerCall.alignment (F32.lit (1 / 2)) (F32.lit 2) (F32.lit (-1)),
      SteerCall.cohesion (F32.lit (1 / 100)) (F32.lit 150) (F32.lit 60)]
    800 600 (constSource 50)).2.2.2.1
    (by decide!) (by decide!) (by decide) (by decide) (by decide) (by decide)

/-- Counterexample to C2 as stated: at `xpos = INT_MAX` with velocity 10 on an 800x600 screen
the clamped velocity is 5 and `xpos + 5` is not an `int`, so `Update()` sets no position;
and with a NaN velocity the conversion `static_cast<int>` is undefined. -/
theorem integration_truncation_counterexample :
    (clampedVelocity 800 600 (Boid.new 2147483647 300 (F32.lit 10) (F32.lit 0))
      (constSource 0)).1 = F32.fin 5 ∧
    INT_MAX < 2147483647 + truncate 5 ∧
    Update 800 600 (Boid.new 2147483647 300 (F32.lit 10) (F32.lit 0)) (constSource 0)
      = none ∧
    Update 800 600 (Boid.new 100 100 F32.nan (F32.lit 0)) (constSource 0) = none := by
  refine ⟨by decide!, by decide!, ?_, ?_⟩
  · exact Option.isNone_iff_eq_none.mp (by decide!)
  · exact Update_of_nan _ _ _ _ (Or.inl (by decide!))

/-- C2 amended (integration truncation): every `Update()` that completes stores the steered
and clamped velocities and adds to each position the truncation of the new velocity of that
axis, truncation rounding toward zero; it completes whenever neither velocity is NaN at
entry and the position is at least 5 away from both ends of the `int` range.  In particular,
when the x boundary tests do not fire and the x draws steer nothing, `xvel = 3.7f` at
`xpos = 100` gives `xpos = 103`, and `xvel = -3.7f` moves the agent by `-3`. -/
theorem integration_truncation_defined :
    (∀ (screenWidth screenHeight : Int) (b b2 : Boid) (g g2 : RandomSource),
      Update screenWidth screenHeight b g = some (b2, g2) →
      ∃ qx qy : ℚ, b2.xvel = F32.fin qx ∧ b2.yvel = F32.fin qy ∧
        (b2.xvel, b2.yvel) = clampedVelocity screenWidth screenHeight b g ∧
        b2.xpos = b.xpos + truncate qx ∧ b2.ypos = b.ypos + truncate qy) ∧
    (∀ (screenWidth screenHeight : Int) (b : Boid) (g : RandomSource),
      b.xvel ≠ F32.nan → b.yvel ≠ F32.nan →
      INT_MIN + 5 ≤ b.xpos → b.xpos ≤ INT_MAX - 5 →
      INT_MIN + 5 ≤ b.ypos → b.ypos ≤ INT_MAX - 5 →
      ∃ (b2 : Boid) (g2 : RandomSource), Update screenWidth screenHeight b g = some (b2, g2)) ∧
    (∀ v : ℚ, truncate v = if 0 ≤ v then ⌊v⌋ else ⌈v⌉) ∧
    (∀ (screenWidth screenHeight : Int) (b : Boid) (g : RandomSource),
      F32.lt (F32.ofInt b.xpos) SCREEN_MARGIN = false →
      F32.gt (F32.ofInt b.xpos) (F32.sub (F32.ofInt screenWidth) SCREEN_MARGIN) = false →
      20 ≤ g.outcome g.calls → g.outcome (g.calls + 1) < 80 →
      b.yvel ≠ F32.nan →
      INT_MIN + 5 ≤ b.xpos → b.xpos ≤ INT_MAX - 5 →
      INT_MIN + 5 ≤ b.ypos → b.ypos ≤ INT_MAX - 5 →
      (b.xvel = F32.lit (37 / 10) →
        ∃ (b2 : Boid) (g2 : RandomSource),
          Update screenWidth screenHeight b g = some (b2, g2) ∧
          b2.xvel = F32.lit (37 / 10) ∧ b2.xpos = b.xpos + 3 ∧
          (b.xpos = 100 → b2.xpos = 103)) ∧
      (b.xvel = F32.lit (-37 / 10) →
        ∃ (b2 : Boid) (g2 : RandomSource),
          Update screenWidth screenHeight b g = some (b2, g2) ∧
          b2.xvel = F32.lit (-37 / 10) ∧ b2.xpos - b.xpos = -3)) := by
  refine ⟨fun sw sh b b2 g g2 h => ?_, fun sw sh b g hvx hvy hx1 hx2 hy1 hy2 => ?_,
    truncate_eq, fun sw sh b g h1 h2 h3 h4 hvy hx1 hx2 hy1 hy2 => ⟨fun hv => ?_, fun hv => ?_⟩⟩
  · obtain ⟨qx, qy, hc, -, -, hb, -⟩ := Update_some_inv _ _ _ _ _ _ h
    refine ⟨qx, qy, ?_, ?_, ?_, ?_, ?_⟩ <;> rw [hb]
    exact hc.symm
  · obtain ⟨qx, qy, -, h⟩ := Update_defined sw sh b g hvx hvy hx1 hx2 hy1 hy2
    exact ⟨_, _, h⟩
  · have hne : b.xvel ≠ F32.nan := by rw [hv]; decide!
    obtain ⟨qx, qy, hc, h⟩ := Update_defined sw sh b g hne hvy hx1 hx2 hy1 hy2
    have hpre := preClamp_xvel_unchanged sw sh b g h1 h2 h3 h4
    have hcx : (clampedVelocity sw sh b g).1 = F32.lit (37 / 10) := by
      show Clamp (preClamp sw sh b g).xvel _ _ = _
      rw [hpre, hv]
      decide!
    have hq : F32.fin qx = F32.lit (37 / 10) := by rw [← hcx, hc]
    have hqx : qx = 15518925 / 4194304 :=
      F32.fin.inj (hq.trans (by decide!))
    have ht : truncate qx = 3 := by rw [hqx]; decide!
    refine ⟨_, _, h, hq, ?_, fun h100 => ?_⟩
    · show b.xpos + truncate qx = b.xpos + 3
      rw [ht]
    · show b.xpos + truncate qx = 103
      rw [ht, h100]
      rfl
  · have hne : b.xvel ≠ F32.nan := by rw [hv]; decide!
    obtain ⟨qx, qy, hc, h⟩ := Update_defined sw sh b g hne hvy hx1 hx2 hy1 hy2
    have hpre := preClamp_xvel_unchanged sw sh b g h1 h2 h3 h4
    have hcx : (clampedVelocity sw sh b g).1 = F32.lit (-37 / 10) := by
      show Clamp (preClamp sw sh b g).xvel _ _ = _
      rw [hpre, hv]
      decide!
    have hq : F32.fin qx = F32.lit (-37 / 10) := by rw [← hcx, hc]
    have hqx : qx = -15518925 / 4194304 :=
      F32.fin.inj (hq.trans (by decide!))
    have ht : truncate qx = -3 := by rw [hqx]; decide!
    refine ⟨_, _, h, hq, ?_⟩
    show b.xpos + truncate qx - b.xpos = -3
    rw [ht]
    omega

/-- Witness of C2 amended: on an 800x600 screen, the agent at (100, 100) with `xvel = 3.7f`,
all draws 50. -/
theorem integration_truncation_defined_witness :
    ∃ (b2 : Boid) (g2 : RandomSource),
      Update 800 600 (Boid.new 100 100 (F32.lit (37 / 10)) (F32.lit 0)) (constSource 50)
        = some (b2, g2) ∧
      b2.xvel = F32.lit (37 / 10) ∧
      b2.xpos = (Boid.new 100 100 (F32.lit (37 / 10)) (F32.lit 0)).xpos + 3 ∧
      ((Boid.new 100 100 (F32.lit (37 / 10)) (F32.lit 0)).xpos = 100 → b2.xpos = 103) :=
  (integration_truncation_defined.2.2.2 800 600
    (Boid.new 100 100 (F32.lit (37 / 10)) (F32.lit 0)) (constSource 50)
    (by decide!) (by decide!) (by decide) (by decide) (by decide!)
    (by decide) (by decide) (by decide) (by decide)).1 rfl

/-- Counterexample to C11 as stated: a velocity of -1000 set by the constructor at
`xpos = INT_MIN` is clamped to -5 and the position sum of `Update()` overflows; and on the
agent constructed with velocity `3e38f`, far above `MAX_VELOCITY`, the call
`ApplyAlignment(0.0f, -3e38f, 0.0f)`, with finite arguments, multiplies an infinite
difference by zero and leaves `xvel` NaN, whose conversion to `int` in `Update()` is
undefined.  In neither case is the agent moved by a defined amount. -/
theorem bounded_displacement_counterexample :
    (clampedVelocity 800 600 (Boid.new (-2147483648) 300 (F32.lit (-1000)) (F32.lit 0))
      (constSource 0)).1 = F32.fin (-5) ∧
    -2147483648 + truncate (-5) < INT_MIN ∧
    Update 800 600 (Boid.new (-2147483648) 300 (F32.lit (-1000)) (F32.lit 0)) (constSource 0)
      = none ∧
    (ApplyAlignment (F32.lit 0) (F32.lit (-300000000000000000000000000000000000000)) (F32.lit 0)
      (Boid.new 400 300 (F32.lit 300000000000000000000000000000000000000) (F32.lit 0))).xvel = F32.nan ∧
    Update 800 600
      (ApplyAlignment (F32.lit 0) (F32.lit (-300000000000000000000000000000000000000)) (F32.lit 0)
        (Boid.new 400 300 (F32.lit 300000000000000000000000000000000000000) (F32.lit 0))) (constSource 0) = none := by
  refine ⟨by decide!, by decide!, ?_, by decide!, ?_⟩
  · exact Option.isNone_iff_eq_none.mp (by decide!)
  · exact Update_of_nan _ _ _ _ (Or.inl (by decide!))

/-- C11 amended (bounded single-frame displacement): every `Update()` that completes moves
the agent by at most 5 on each axis, whatever the velocity at entry (also far above
`MAX_VELOCITY` or infinite), the screen size and the draws; and `Update()` completes
whenever neither velocity is NaN at entry and the position is at least 5 away from both
ends of the `int` range. -/
theorem bounded_displacement_defined (screenWidth screenHeight : Int) (b : Boid)
    (g : RandomSource) :
    (∀ (b2 : Boid) (g2 : RandomSource),
      Update screenWidth screenHeight b g = some (b2, g2) →
      |b2.xpos - b.xpos| ≤ 5 ∧ |b2.ypos - b.ypos| ≤ 5) ∧
    (b.xvel ≠ F32.nan → b.yvel ≠ F32.nan →
      INT_MIN + 5 ≤ b.xpos → b.xpos ≤ INT_MAX - 5 →
      INT_MIN + 5 ≤ b.ypos → b.ypos ≤ INT_MAX - 5 →
      ∃ (b2 : Boid) (g2 : RandomSource),
        Update screenWidth screenHeight b g = some (b2, g2) ∧
        |b2.xpos - b.xpos| ≤ 5 ∧ |b2.ypos - b.ypos| ≤ 5) := by
  have key : ∀ (b2 : Boid) (g2 : RandomSource),
      Update screenWidth screenHeight b g = some (b2, g2) →
      |b2.xpos - b.xpos| ≤ 5 ∧ |b2.ypos - b.ypos| ≤ 5 := by
    intro b2 g2 h
    obtain ⟨qx, qy, -, hx, hy, hb, -⟩ := Update_some_inv _ _ _ _ _ _ h
    rw [hb]
    simp only [add_sub_cancel_left]
    exact ⟨truncate_abs_le_five qx hx.1 hx.2, truncate_abs_le_five qy hy.1 hy.2⟩
  refine ⟨key, fun hvx hvy hx1 hx2 hy1 hy2 => ?_⟩
  obtain ⟨qx, qy, -, h⟩ := Update_defined screenWidth screenHeight b g hvx hvy hx1 hx2 hy1 hy2
  exact ⟨_, _, h, key _ _ h⟩

/-- Witness of C11 amended: the agent (400, 300) with velocity (1000, -1000) on an 800x600
screen, all draws 50. -/
theorem bounded_displacement_defined_witness :
    ∃ (b2 : Boid) (g2 : RandomSource),
      Update 800 600 (Boid.new 400 300 (F32.lit 1000) (F32.lit (-1000))) (constSource 50)
        = some (b2, g2) ∧
      |b2.xpos - (Boid.new 400 300 (F32.lit 1000) (F32.lit (-1000))).xpos| ≤ 5 ∧
      |b2.ypos - (Boid.new 400 300 (F32.lit 1000) (F32.lit (-1000))).ypos| ≤ 5 :=
  (bounded_displacement_defined 800 600 (Boid.new 400 300 (F32.lit 1000) (F32.lit (-1000)))
    (constSource 50)).2 (by decide!) (by decide!) (by decide) (by decide) (by decide)
    (by decide)

/-- Counterexample to C7 as stated: from `xvel = 0` toward `avgXVel = 1.9f` with factor 0.5,
the velocity after 24 calls and after 25 calls is the same binary32 value, one step below
the target: the error stays `2 ^ (-23)`, it is not halved by the 25th call and is not
`(avgXVel - xvel_0) / 2 ^ 25`. -/
theorem alignment_convergence_counterexample :
    F32.lit (19 / 10) = F32.fin (15938355 / 8388608) ∧
    (alignTimes (F32.lit (1 / 2)) (F32.lit (19 / 10)) (F32.lit 0) 24
      (Boid.new 0 0 (F32.lit 0) (F32.lit 0))).xvel = F32.fin (7969177 / 4194304) ∧
    (alignTimes (F32.lit (1 / 2)) (F32.lit (19 / 10)) (F32.lit 0) 25
      (Boid.new 0 0 (F32.lit 0) (F32.lit 0))).xvel = F32.fin (7969177 / 4194304) ∧
    (15938355 / 8388608 - 7969177 / 4194304 : ℚ)
      ≠ (15938355 / 8388608 - 7969177 / 4194304) / 2 ∧
    (15938355 / 8388608 - 7969177 / 4194304 : ℚ) ≠ (15938355 / 8388608 - 0) / 2 ^ 25 := by
  refine ⟨by decide!, by decide!, by decide!, by norm_num, by norm_num⟩

/-- C7 amended (alignment convergence): as long as no operation of the calls rounds (the
difference, the product and the sum of each call are representable in binary32), one call
`ApplyAlignment(a, avgXVel, avgYVel)` gives `avg - vel_new = (1 - a) * (avg - vel_old)` on
each axis; with `a = 0.5` the error halves, so after `n` such calls it is
`(avg - vel_0) / 2 ^ n`, and each velocity moves monotonically toward its target without
crossing it. -/
theorem alignment_convergence_exact :
    (∀ (a avgXVel avgYVel vx vy : ℚ) (b : Boid),
      b.xvel = F32.fin vx → b.yvel = F32.fin vy →
      (alignExact a avgXVel vx →
        ∃ wx : ℚ,
          (ApplyAlignment (F32.fin a) (F32.fin avgXVel) (F32.fin avgYVel) b).xvel = F32.fin wx ∧
          avgXVel - wx = (1 - a) * (avgXVel - vx)) ∧
      (alignExact a avgYVel vy →
        ∃ wy : ℚ,
          (ApplyAlignment (F32.fin a) (F32.fin avgXVel) (F32.fin avgYVel) b).yvel = F32.fin wy ∧
          avgYVel - wy = (1 - a) * (avgYVel - vy))) ∧
    (∀ (avgXVel avgYVel vx vy : ℚ) (b : Boid),
      b.xvel = F32.fin vx → b.yvel = F32.fin vy →
      (alignExact (1 / 2) avgXVel vx →
        ∃ wx : ℚ,
          (ApplyAlignment (F32.fin (1 / 2)) (F32.fin avgXVel) (F32.fin avgYVel) b).xvel
            = F32.fin wx ∧
          avgXVel - wx = (avgXVel - vx) / 2) ∧
      (alignExact (1 / 2) avgYVel vy →
        ∃ wy : ℚ,
          (ApplyAlignment (F32.fin (1 / 2)) (F32.fin avgXVel) (F32.fin avgYVel) b).yvel
            = F32.fin wy ∧
          avgYVel - wy = (avgYVel - vy) / 2)) ∧
    (∀ (avgXVel avgYVel vx vy : ℚ) (b : Boid) (n : Nat),
      b.xvel = F32.fin vx → b.yvel = F32.fin vy →
      ((∀ k : Nat, k < n + 1 →
          alignExact (1 / 2) avgXVel (avgXVel - (avgXVel - vx) / 2 ^ k)) →
        ∃ w w2 : ℚ,
          (alignTimes (F32.fin (1 / 2)) (F32.fin avgXVel) (F32.fin avgYVel) n b).xvel
            = F32.fin w ∧
          (alignTimes (F32.fin (1 / 2)) (F32.fin avgXVel) (F32.fin avgYVel) (n + 1) b).xvel
            = F32.fin w2 ∧
          avgXVel - w = (avgXVel - vx) / 2 ^ n ∧
          avgXVel - w2 = (avgXVel - vx) / 2 ^ (n + 1) ∧
          (vx ≤ avgXVel → w ≤ w2 ∧ w2 ≤ avgXVel) ∧
          (avgXVel ≤ vx → avgXVel ≤ w2 ∧ w2 ≤ w)) ∧
      ((∀ k : Nat, k < n + 1 →
          alignExact (1 / 2) avgYVel (avgYVel - (avgYVel - vy) / 2 ^ k)) →
        ∃ w w2 : ℚ,
          (alignTimes (F32.fin (1 / 2)) (F32.fin avgXVel) (F32.fin avgYVel) n b).yvel
            = F32.fin w ∧
          (alignTimes (F32.fin (1 / 2)) (F32.fin avgXVel) (F32.fin avgYVel) (n + 1) b).yvel
            = F32.fin w2 ∧
          avgYVel - w = (avgYVel - vy) / 2 ^ n ∧
          avgYVel - w2 = (avgYVel - vy) / 2 ^ (n + 1) ∧
          (vy ≤ avgYVel → w ≤ w2 ∧ w2 ≤ avgYVel) ∧
          (avgYVel ≤ vy → avgYVel ≤ w2 ∧ w2 ≤ w))) := by
  refine ⟨fun a ax ay vx vy b hbx hby => ⟨fun h => ?_, fun h => ?_⟩,
    fun ax ay vx vy b hbx hby => ⟨fun h => ?_, fun h => ?_⟩,
    fun ax ay vx vy b n hbx hby => ⟨fun h => ?_, fun h => ?_⟩⟩
  · refine ⟨vx + (ax - vx) * a, ?_, by ring⟩
    show F32.add b.xvel (F32.mul (F32.sub (F32.fin ax) b.xvel) (F32.fin a)) = _
    rw [hbx, alignStep_exact _ _ _ h]
  · refine ⟨vy + (ay - vy) * a, ?_, by ring⟩
    show F32.add b.yvel (F32.mul (F32.sub (F32.fin ay) b.yvel) (F32.fin a)) = _
    rw [hby, alignStep_exact _ _ _ h]
  · refine ⟨vx + (ax - vx) * (1 / 2), ?_, by ring⟩
    show F32.add b.xvel (F32.mul (F32.sub (F32.fin ax) b.xvel) (F32.fin (1 / 2))) = _
    rw [hbx, alignStep_exact _ _ _ h]
  · refine ⟨vy + (ay - vy) * (1 / 2), ?_, by ring⟩
    show F32.add b.yvel (F32.mul (F32.sub (F32.fin ay) b.yvel) (F32.fin (1 / 2))) = _
    rw [hby, alignStep_exact _ _ _ h]
  · have h0 := alignTimes_xvel_exact ax vx (F32.fin ay) b n hbx
      (fun k hk => h k (Nat.lt_succ_of_lt hk))
    have h1 := alignTimes_xvel_exact ax vx (F32.fin ay) b (n + 1) hbx h
    have hm := halving_monotone ax vx n
    exact ⟨_, _, h0, h1, by ring, by ring, hm.1, hm.2⟩
  · have h0 := alignTimes_yvel_exact ay vy (F32.fin ax) b n hby
      (fun k hk => h k (Nat.lt_succ_of_lt hk))
    have h1 := alignTimes_yvel_exact ay vy (F32.fin ax) b (n + 1) hby h
    have hm := halving_monotone ay vy n
    exact ⟨_, _, h0, h1, by ring, by ring, hm.1, hm.2⟩

/-- Witness of C7 amended: from `xvel = 0` toward `avgXVel = 8`, the velocities 0, 4, 6, 7
and 7.5 of the first four calls are all computed without rounding. -/
theorem alignment_convergence_exact_witness :
    ∃ w w2 : ℚ,
      (alignTimes (F32.fin (1 / 2)) (F32.fin 8) (F32.fin 0) 3
        (Boid.new 0 0 (F32.fin 0) (F32.fin 0))).xvel = F32.fin w ∧
      (alignTimes (F32.fin (1 / 2)) (F32.fin 8) (F32.fin 0) (3 + 1)
        (Boid.new 0 0 (F32.fin 0) (F32.fin 0))).xvel = F32.fin w2 ∧
      8 - w = (8 - 0) / 2 ^ 3 ∧
      8 - w2 = (8 - 0) / 2 ^ (3 + 1) ∧
      ((0 : ℚ) ≤ 8 → w ≤ w2 ∧ w2 ≤ 8) ∧
      ((8 : ℚ) ≤ 0 → 8 ≤ w2 ∧ w2 ≤ w) :=
  (alignment_convergence_exact.2.2 8 0 0 0 (Boid.new 0 0 (F32.fin 0) (F32.fin 0)) 3
    rfl rfl).1 (fun k hk => by interval_cases k <;> decide!)

/-- Counterexample to C8 as stated: with `alignFactor = 3 > 2` and `xvel` already equal to
`avgXVel = 0` the call leaves `xvel` at 0, so the distance does not strictly grow; and with
`alignFactor = 1`, from `xvel = -5` toward `avgXVel = -1.6f`, the new `xvel` is the binary32
value just above `-1.6f`: it is not `avgXVel` and lies outside the closed interval between
the old `xvel` and `avgXVel`. -/
theorem alignment_interpolation_counterexample :
    (ApplyAlignment (F32.lit 3) (F32.lit 0) (F32.lit 0)
      (Boid.new 0 0 (F32.lit 0) (F32.lit 0))).xvel = F32.fin 0 ∧
    ¬ (|(0 : ℚ) - 0| < |(0 : ℚ) - 0|) ∧
    F32.lit (-16 / 10) = F32.fin (-13421773 / 8388608) ∧
    (ApplyAlignment (F32.lit 1) (F32.lit (-16 / 10)) (F32.lit 0)
      (Boid.new 0 0 (F32.lit (-5)) (F32.lit 0))).xvel = F32.fin (-3355443 / 2097152) ∧
    (-3355443 / 2097152 : ℚ) ≠ -13421773 / 8388608 ∧
    ¬ ((-3355443 / 2097152 : ℚ) ≤ max (-5) (-13421773 / 8388608)) := by
  refine ⟨by decide!, by norm_num, by decide!, by decide!, by norm_num, by norm_num⟩

/-- C8 amended (alignment as interpolation): when the call involves no rounding (on each
axis the difference, the product and the sum are representable in binary32), then for
`alignFactor` in `[0, 1]` the new velocity lies between the old one and the target (`0`
leaves it unchanged, `1` sets it to the target); for `alignFactor > 1` and an old velocity
different from the target the new velocity is on the other side of the target; for
`alignFactor > 2` or `alignFactor < 0` and an old velocity different from the target the
distance to the target strictly grows; an old velocity equal to the target stays there.  On
both axes. -/
theorem alignment_interpolation_exact (a avgXVel avgYVel vx vy : ℚ) (b : Boid)
    (hbx : b.xvel = F32.fin vx) (hby : b.yvel = F32.fin vy)
    (hx : alignExact a avgXVel vx) (hy : alignExact a avgYVel vy) :
    ∃ wx wy : ℚ,
      (ApplyAlignment (F32.fin a) (F32.fin avgXVel) (F32.fin avgYVel) b).xvel = F32.fin wx ∧
      (ApplyAlignment (F32.fin a) (F32.fin avgXVel) (F32.fin avgYVel) b).yvel = F32.fin wy ∧
      (0 ≤ a → a ≤ 1 →
        (min vx avgXVel ≤ wx ∧ wx ≤ max vx avgXVel) ∧
        (min vy avgYVel ≤ wy ∧ wy ≤ max vy avgYVel)) ∧
      (a = 0 → wx = vx ∧ wy = vy) ∧
      (a = 1 → wx = avgXVel ∧ wy = avgYVel) ∧
      (1 < a →
        (vx < avgXVel → avgXVel < wx) ∧ (avgXVel < vx → wx < avgXVel) ∧
        (vy < avgYVel → avgYVel < wy) ∧ (avgYVel < vy → wy < avgYVel)) ∧
      (2 < a ∨ a < 0 →
        (vx ≠ avgXVel → |avgXVel - vx| < |avgXVel - wx|) ∧
        (vy ≠ avgYVel → |avgYVel - vy| < |avgYVel - wy|)) ∧
      (vx = avgXVel → wx = avgXVel) ∧
      (vy = avgYVel → wy = avgYVel) := by
  have ex : avgXVel - (vx + (avgXVel - vx) * a) = (1 - a) * (avgXVel - vx) := by ring
  have ey : avgYVel - (vy + (avgYVel - vy) * a) = (1 - a) * (avgYVel - vy) := by ring
  refine ⟨vx + (avgXVel - vx) * a, vy + (avgYVel - vy) * a, ?_, ?_, fun h0 h1 => ?_,
    fun h => ?_, fun h => ?_, fun h1 => ?_, fun h => ?_, fun h => ?_, fun h => ?_⟩
  · show F32.add b.xvel (F32.mul (F32.sub (F32.fin avgXVel) b.xvel) (F32.fin a)) = _
    rw [hbx, alignStep_exact _ _ _ hx]
  · show F32.add b.yvel (F32.mul (F32.sub (F32.fin avgYVel) b.yvel) (F32.fin a)) = _
    rw [hby, alignStep_exact _ _ _ hy]
  · refine ⟨⟨?_, ?_⟩, ⟨?_, ?_⟩⟩
    · rcases le_total vx avgXVel with h | h
      · rw [min_eq_left h]; nlinarith
      · rw [min_eq_right h]; nlinarith
    · rcases le_total vx avgXVel with h | h
      · rw [max_eq_right h]; nlinarith
      · rw [max_eq_left h]; nlinarith
    · rcases le_total vy avgYVel with h | h
      · rw [min_eq_left h]; nlinarith
      · rw [min_eq_right h]; nlinarith
    · rcases le_total vy avgYVel with h | h
      · rw [max_eq_right h]; nlinarith
      · rw [max_eq_left h]; nlinarith
  · rw [h]
    constructor <;> ring
  · rw [h]
    constructor <;> ring
  · refine ⟨fun h => ?_, fun h => ?_, fun h => ?_, fun h => ?_⟩ <;> nlinarith
  · refine ⟨fun hne => ?_, fun hne => ?_⟩
    · rw [ex]
      exact abs_scale_grows a _ h (sub_ne_zero.mpr (Ne.symm hne))
    · rw [ey]
      exact abs_scale_grows a _ h (sub_ne_zero.mpr (Ne.symm hne))
  · rw [h]; ring
  · rw [h]; ring

/-- Witness of C8 amended: from velocity (0, 0) toward (4, 4) with factor 1/2: the
differences 4, the products 2 and the sums 2 are representable. -/
theorem alignment_interpolation_exact_witness :
    ∃ wx wy : ℚ,
      (ApplyAlignment (F32.fin (1 / 2)) (F32.fin 4) (F32.fin 4)
        (Boid.new 0 0 (F32.fin 0) (F32.fin 0))).xvel = F32.fin wx ∧
      (ApplyAlignment (F32.fin (1 / 2)) (F32.fin 4) (F32.fin 4)
        (Boid.new 0 0 (F32.fin 0) (F32.fin 0))).yvel = F32.fin wy ∧
      ((0 : ℚ) ≤ 1 / 2 → (1 / 2 : ℚ) ≤ 1 →
        (min 0 4 ≤ wx ∧ wx ≤ max 0 4) ∧ (min 0 4 ≤ wy ∧ wy ≤ max 0 4)) ∧
      ((1 / 2 : ℚ) = 0 → wx = 0 ∧ wy = 0) ∧
      ((1 / 2 : ℚ) = 1 → wx = 4 ∧ wy = 4) ∧
      ((1 : ℚ) < 1 / 2 →
        ((0 : ℚ) < 4 → 4 < wx) ∧ ((4 : ℚ) < 0 → wx < 4) ∧
        ((0 : ℚ) < 4 → 4 < wy) ∧ ((4 : ℚ) < 0 → wy < 4)) ∧
      ((2 : ℚ) < 1 / 2 ∨ (1 / 2 : ℚ) < 0 →
        ((0 : ℚ) ≠ 4 → |(4 : ℚ) - 0| < |4 - wx|) ∧
        ((0 : ℚ) ≠ 4 → |(4 : ℚ) - 0| < |4 - wy|)) ∧
      ((0 : ℚ) = 4 → wx = 4) ∧
      ((0 : ℚ) = 4 → wy = 4) :=
  alignment_interpolation_exact (1 / 2) 4 4 0 0 (Boid.new 0 0 (F32.fin 0) (F32.fin 0))
    rfl rfl (by decide!) (by decide!)

/-- Counterexample to C9 as stated: at `xpos = 100` with `xvel = 1`, the call
`ApplyCohesion(0.0005f, 100.0001f, ...)` has `avgXPos > xpos` and a positive factor, yet
leaves `xvel` at exactly 1: the increment is absorbed by the rounding of the sum. -/
theorem cohesion_pull_counterexample :
    F32.lt (F32.ofInt 100) (F32.lit (1000001 / 10000)) = true ∧
    F32.lt (F32.lit 0) (F32.lit (5 / 10000)) = true ∧
    (ApplyCohesion (F32.lit (5 / 10000)) (F32.lit (1000001 / 10000)) (F32.lit 100)
      (Boid.new 100 100 (F32.lit 1) (F32.lit 0))).xvel = F32.fin 1 ∧
    (Boid.new 100 100 (F32.lit 1) (F32.lit 0)).xvel = F32.fin 1 := by
  refine ⟨by decide!, by decide!, by decide!, by decide!⟩

/-- C9 amended (cohesion pull): `ApplyCohesion(c, avgXPos, avgYPos)` sets `xvel` to the
binary32 sum of `xvel` and the binary32 product of `avgXPos - xpos` by `c`, and likewise
`yvel`; when the call involves no rounding on an axis (the converted position, the
difference, the product and the sum are representable), the new velocity is exactly
`vel + (avg - pos) * c`, so for `c > 0` a target beyond the position strictly increases the
velocity, a target before it strictly decreases it, and a target at the position leaves it
unchanged. -/
theorem cohesion_pull_exact (c avgXPos avgYPos : F32) (b : Boid) :
    (ApplyCohesion c avgXPos avgYPos b).xvel
      = F32.add b.xvel (F32.mul (F32.sub avgXPos (F32.ofInt b.xpos)) c) ∧
    (ApplyCohesion c avgXPos avgYPos b).yvel
      = F32.add b.yvel (F32.mul (F32.sub avgYPos (F32.ofInt b.ypos)) c) ∧
    (∀ cq aq vq : ℚ, c = F32.fin cq → avgXPos = F32.fin aq → b.xvel = F32.fin vq →
      cohesionExact cq aq b.xpos vq →
      ∃ w : ℚ, (ApplyCohesion c avgXPos avgYPos b).xvel = F32.fin w ∧
        w = vq + (aq - (b.xpos : ℚ)) * cq ∧
        (0 < cq →
          ((b.xpos : ℚ) < aq → vq < w) ∧ (aq < (b.xpos : ℚ) → w < vq) ∧
          (aq = (b.xpos : ℚ) → w = vq))) ∧
    (∀ cq aq vq : ℚ, c = F32.fin cq → avgYPos = F32.fin aq → b.yvel = F32.fin vq →
      cohesionExact cq aq b.ypos vq →
      ∃ w : ℚ, (ApplyCohesion c avgXPos avgYPos b).yvel = F32.fin w ∧
        w = vq + (aq - (b.ypos : ℚ)) * cq ∧
        (0 < cq →
          ((b.ypos : ℚ) < aq → vq < w) ∧ (aq < (b.ypos : ℚ) → w < vq) ∧
          (aq = (b.ypos : ℚ) → w = vq))) := by
  have sign : ∀ (cq aq vq p : ℚ), 0 < cq →
      (p < aq → vq < vq + (aq - p) * cq) ∧ (aq < p → vq + (aq - p) * cq < vq) ∧
      (aq = p → vq + (aq - p) * cq = vq) := by
    intro cq aq vq p hc
    refine ⟨fun h => ?_, fun h => ?_, fun h => ?_⟩
    · have := mul_pos (sub_pos.mpr h) hc
      linarith
    · have := mul_neg_of_neg_of_pos (sub_neg.mpr h) hc
      linarith
    · rw [h]; ring
  refine ⟨rfl, rfl, fun cq aq vq hc ha hv hex => ?_, fun cq aq vq hc ha hv hex => ?_⟩
  · refine ⟨vq + (aq - (b.xpos : ℚ)) * cq, ?_, rfl, sign cq aq vq _⟩
    show F32.add b.xvel (F32.mul (F32.sub avgXPos (F32.ofInt b.xpos)) c) = _
    rw [hc, ha, hv, cohesionStep_exact _ _ _ _ hex]
  · refine ⟨vq + (aq - (b.ypos : ℚ)) * cq, ?_, rfl, sign cq aq vq _⟩
    show F32.add b.yvel (F32.mul (F32.sub avgYPos (F32.ofInt b.ypos)) c) = _
    rw [hc, ha, hv, cohesionStep_exact _ _ _ _ hex]

/-- Witness of C9 amended: the agent at (100, 100) with velocity (1, 1) pulled toward
x = 164 with factor 1/64: the difference 64, the product 1 and the sum 2 are representable,
and the velocity rises from 1 to 2. -/
theorem cohesion_pull_exact_witness :
    ∃ w : ℚ,
      (ApplyCohesion (F32.fin (1 / 64)) (F32.fin 164) (F32.fin 100)
        (Boid.new 100 100 (F32.fin 1) (F32.fin 1))).xvel = F32.fin w ∧
      w = 1 + (164 - (((Boid.new 100 100 (F32.fin 1) (F32.fin 1)).xpos : Int) : ℚ)) * (1 / 64) ∧
      ((0 : ℚ) < 1 / 64 →
        ((((Boid.new 100 100 (F32.fin 1) (F32.fin 1)).xpos : Int) : ℚ) < 164 → 1 < w) ∧
        (164 < (((Boid.new 100 100 (F32.fin 1) (F32.fin 1)).xpos : Int) : ℚ) → w < 1) ∧
        (164 = (((Boid.new 100 100 (F32.fin 1) (F32.fin 1)).xpos : Int) : ℚ) → w = 1)) :=
  (cohesion_pull_exact (F32.fin (1 / 64)) (F32.fin 164) (F32.fin 100)
    (Boid.new 100 100 (F32.fin 1) (F32.fin 1))).2.2.1 (1 / 64) 164 1 rfl rfl rfl (by decide!)

/-- Counterexample to C10 as stated: from `xvel = 0`, the two calls `ApplySeparation(0.05f,
1, 0)` and `ApplySeparation(0.05f, 6, 0)` give a velocity different from the single call
`ApplySeparation(0.05f, 7, 0)`; and from `xvel = 0.5`, the calls with displacements -10 and
-4 give different velocities in the two orders. -/
theorem separation_accumulator_counterexample :
    (ApplySeparation (F32.lit (1 / 20)) 6 0
      (ApplySeparation (F32.lit (1 / 20)) 1 0
        (Boid.new 0 0 (F32.lit 0) (F32.lit 0)))).xvel = F32.fin (2936013 / 8388608) ∧
    (ApplySeparation (F32.lit (1 / 20)) (1 + 6) (0 + 0)
      (Boid.new 0 0 (F32.lit 0) (F32.lit 0))).xvel = F32.fin (11744051 / 33554432) ∧
    (2936013 / 8388608 : ℚ) ≠ 11744051 / 33554432 ∧
    (ApplySeparation (F32.lit (1 / 20)) (-4) 0
      (ApplySeparation (F32.lit (1 / 20)) (-10) 0
        (Boid.new 0 0 (F32.lit (1 / 2)) (F32.lit 0)))).xvel
      ≠ (ApplySeparation (F32.lit (1 / 20)) (-10) 0
          (ApplySeparation (F32.lit (1 / 20)) (-4) 0
            (Boid.new 0 0 (F32.lit (1 / 2)) (F32.lit 0)))).xvel := by
  refine ⟨by decide!, by decide!, by norm_num, by decide!⟩

/-- C10 amended (separation is an accumulator on the velocity only):
`ApplySeparation(f, moveX, moveY)` sets `xvel` to the binary32 sum of `xvel` and the binary32
product of `moveX` by `f`, likewise `yvel`, and leaves the position unchanged;
`ApplyAlignment` and `ApplyCohesion` leave the position unchanged too.  When the calls
involve no rounding (the converted displacements, the products and the sums are
representable), two separation calls commute, and with one factor they equal a single call
with the summed displacement. -/
theorem separation_accumulator_exact (f f2 : F32) (moveX moveY moveX2 moveY2 : Int)
    (p q r : F32) (b : Boid) :
    (ApplySeparation f moveX moveY b).xvel
      = F32.add b.xvel (F32.mul (F32.ofInt moveX) f) ∧
    (ApplySeparation f moveX moveY b).yvel
      = F32.add b.yvel (F32.mul (F32.ofInt moveY) f) ∧
    (ApplySeparation f moveX moveY b).xpos = b.xpos ∧
    (ApplySeparation f moveX moveY b).ypos = b.ypos ∧
    (ApplyAlignment p q r b).xpos = b.xpos ∧ (ApplyAlignment p q r b).ypos = b.ypos ∧
    (ApplyCohesion p q r b).xpos = b.xpos ∧ (ApplyCohesion p q r b).ypos = b.ypos ∧
    (∀ fq fq2 vx : ℚ, f = F32.fin fq → f2 = F32.fin fq2 → b.xvel = F32.fin vx →
      sepExact fq2 moveX2 vx → sepExact fq moveX (vx + (moveX2 : ℚ) * fq2) →
      sepExact fq moveX vx → sepExact fq2 moveX2 (vx + (moveX : ℚ) * fq) →
      (ApplySeparation f moveX moveY (ApplySeparation f2 moveX2 moveY2 b)).xvel
        = (ApplySeparation f2 moveX2 moveY2 (ApplySeparation f moveX moveY b)).xvel) ∧
    (∀ fq fq2 vy : ℚ, f = F32.fin fq → f2 = F32.fin fq2 → b.yvel = F32.fin vy →
      sepExact fq2 moveY2 vy → sepExact fq moveY (vy + (moveY2 : ℚ) * fq2) →
      sepExact fq moveY vy → sepExact fq2 moveY2 (vy + (moveY : ℚ) * fq) →
      (ApplySeparation f moveX moveY (ApplySeparation f2 moveX2 moveY2 b)).yvel
        = (ApplySeparation f2 moveX2 moveY2 (ApplySeparation f moveX moveY b)).yvel) ∧
    (∀ fq vx : ℚ, f = F32.fin fq → b.xvel = F32.fin vx →
      sepExact fq moveX2 vx → sepExact fq moveX (vx + (moveX2 : ℚ) * fq) →
      sepExact fq (moveX2 + moveX) vx →
      (ApplySeparation f moveX moveY (ApplySeparation f moveX2 moveY2 b)).xvel
        = (ApplySeparation f (moveX2 + moveX) (moveY2 + moveY) b).xvel) ∧
    (∀ fq vy : ℚ, f = F32.fin fq → b.yvel = F32.fin vy →
      sepExact fq moveY2 vy → sepExact fq moveY (vy + (moveY2 : ℚ) * fq) →
      sepExact fq (moveY2 + moveY) vy →
      (ApplySeparation f moveX moveY (ApplySeparation f moveX2 moveY2 b)).yvel
        = (ApplySeparation f (moveX2 + moveX) (moveY2 + moveY) b).yvel) := by
  refine ⟨rfl, rfl, rfl, rfl, rfl, rfl, rfl, rfl, ?_, ?_, ?_, ?_⟩
  · intro fq fq2 vx hf hf2 hv h1 h2 h3 h4
    show F32.add (F32.add b.xvel (F32.mul (F32.ofInt moveX2) f2)) (F32.mul (F32.ofInt moveX) f)
      = F32.add (F32.add b.xvel (F32.mul (F32.ofInt moveX) f)) (F32.mul (F32.ofInt moveX2) f2)
    rw [hf, hf2, hv, sepStep_exact _ _ _ h1, sepStep_exact _ _ _ h2, sepStep_exact _ _ _ h3,
      sepStep_exact _ _ _ h4]
    congr 1
    ring
  · intro fq fq2 vy hf hf2 hv h1 h2 h3 h4
    show F32.add (F32.add b.yvel (F32.mul (F32.ofInt moveY2) f2)) (F32.mul (F32.ofInt moveY) f)
      = F32.add (F32.add b.yvel (F32.mul (F32.ofInt moveY) f)) (F32.mul (F32.ofInt moveY2) f2)
    rw [hf, hf2, hv, sepStep_exact _ _ _ h1, sepStep_exact _ _ _ h2, sepStep_exact _ _ _ h3,
      sepStep_exact _ _ _ h4]
    congr 1
    ring
  · intro fq vx hf hv h1 h2 h3
    show F32.add (F32.add b.xvel (F32.mul (F32.ofInt moveX2) f)) (F32.mul (F32.ofInt moveX) f)
      = F32.add b.xvel (F32.mul (F32.ofInt (moveX2 + moveX)) f)
    rw [hf, hv, sepStep_exact _ _ _ h1, sepStep_exact _ _ _ h2, sepStep_exact _ _ _ h3]
    congr 1
    push_cast
    ring
  · intro fq vy hf hv h1 h2 h3
    show F32.add (F32.add b.yvel (F32.mul (F32.ofInt moveY2) f)) (F32.mul (F32.ofInt moveY) f)
      = F32.add b.yvel (F32.mul (F32.ofInt (moveY2 + moveY)) f)
    rw [hf, hv, sepStep_exact _ _ _ h1, sepStep_exact _ _ _ h2, sepStep_exact _ _ _ h3]
    congr 1
    push_cast
    ring

/-- Witness of C10 amended: factor 1/4 with displacements 2 and 6 from velocity 0: the
products 1/2 and 3/2 and the sums 1/2, 3/2 and 2 are representable. -/
theorem separation_accumulator_exact_witness :
    (ApplySeparation (F32.fin (1 / 4)) 6 0
        (ApplySeparation (F32.fin (1 / 4)) 2 0 (Boid.new 0 0 (F32.fin 0) (F32.fin 0)))).xvel
      = (ApplySeparation (F32.fin (1 / 4)) 2 0
          (ApplySeparation (F32.fin (1 / 4)) 6 0 (Boid.new 0 0 (F32.fin 0) (F32.fin 0)))).xvel ∧
    (ApplySeparation (F32.fin (1 / 4)) 6 0
        (ApplySeparation (F32.fin (1 / 4)) 2 0 (Boid.new 0 0 (F32.fin 0) (F32.fin 0)))).xvel
      = (ApplySeparation (F32.fin (1 / 4)) (2 + 6) (0 + 0)
          (Boid.new 0 0 (F32.fin 0) (F32.fin 0))).xvel :=
  ⟨(separation_accumulator_exact (F32.fin (1 / 4)) (F32.fin (1 / 4)) 6 0 2 0
      (F32.fin 0) (F32.fin 0) (F32.fin 0) (Boid.new 0 0 (F32.fin 0) (F32.fin 0))).2.2.2.2.2.2.2.2.1
      (1 / 4) (1 / 4) 0 rfl rfl rfl (by decide!) (by decide!) (by decide!) (by decide!),
   (separation_accumulator_exact (F32.fin (1 / 4)) (F32.fin (1 / 4)) 6 0 2 0
      (F32.fin 0) (F32.fin 0) (F32.fin 0)
      (Boid.new 0 0 (F32.fin 0) (F32.fin 0))).2.2.2.2.2.2.2.2.2.2.1
      (1 / 4) 0 rfl rfl (by decide!) (by decide!) (by decide!)⟩

end Machine

end BoidsCPP
